import Mathlib

/-! Persistence of the runtime configuration in NVS (configmanager.cpp)

A shallow embedding of `src/configmanager.cpp` (ESP32-Paxcounter).  The C file works on
three globals (`cfg`, `my_handle`, `err`) and on the NVS namespace `"config"`; here they
are the fields of one `World` value that every function takes and returns.

The ESP-IDF NVS library is an external collaborator.  It is modelled by its documented
contract: a namespace is a map from keys to typed values, `nvs_open` hands out a fresh
handle, every call on a handle that is not open fails with `ESP_ERR_NVS_INVALID_HANDLE`,
a typed read of a key that is absent or holds another type fails with
`ESP_ERR_NVS_NOT_FOUND`, a write binds the key (replacing what it held) and is visible to
later reads at once, so that `nvs_commit` changes nothing.  Writes and commits on an open
handle succeed.  What the environment decides (whether the medium initialises, whether
the namespace opens, which reads fail) is a parameter `Env`, and so is the value that
saveConfig finds in its local `required_size`, which it never sets.

A function returns `none` when the C program leaves defined behaviour or is aborted:
`ESP_ERROR_CHECK` on a failed medium initialisation, or a string copied into a
10-byte buffer it does not fit.  Strings are taken to be ASCII, one byte per character.
-/

namespace ConfigManager

/-- Return codes of the ESP-IDF calls made by configmanager.cpp. -/
inductive esp_err_t
  | ESP_OK
  | ESP_FAIL
  | ESP_ERR_NVS_NOT_FOUND
  | ESP_ERR_NVS_INVALID_HANDLE
  | ESP_ERR_NVS_INVALID_LENGTH
  | ESP_ERR_NVS_NO_FREE_PAGES
  deriving DecidableEq

open esp_err_t

/-- A value held under a key of the namespace, tagged with its NVS type. -/
inductive Val
  | str (s : String)
  | i8 (v : Int)
  | i16 (v : Int)
  deriving DecidableEq

/-- Modelled from the spec: the record `configData_t` behind the global `cfg`; its
declaration (globals.h) is not part of the sources.  Twelve integer settings (`rssilimit`
is an int16, the others int8) and `version`, a `char[10]` holding at most 9 characters. -/
structure configData_t where
  lorasf : Int
  txpower : Int
  adrmode : Int
  screensaver : Int
  screenon : Int
  countermode : Int
  rssilimit : Int
  wifiscancycle : Int
  wifichancycle : Int
  blescancycle : Int
  blescan : Int
  wifiant : Int
  version : String
  deriving DecidableEq

/-- Build-time constants used by configmanager.cpp and defined elsewhere (main.h,
paxcounter.conf): they are parameters of the embedding. -/
structure Build where
  PROGVERSION : String
  LORASFDEFAULT : Int
  SEND_SECS : Int
  WIFI_CHANNEL_SWITCH_INTERVAL : Int
  BLESCANTIME : Int

/-- What the environment decides: the result of the n-th `nvs_flash_init`, the result of
`nvs_flash_erase`, the result of the n-th `nvs_open` (only `ESP_OK` opens), for every
handle the keys whose read through it fails with an I/O error, and the indeterminate
value that the local `required_size` of saveConfig (line 76, never set) holds in the
call of saveConfig that brought the number of `nvs_open` calls to n. -/
structure Env where
  nvs_flash_init : Nat → esp_err_t
  nvs_flash_erase : esp_err_t
  nvs_open : Nat → esp_err_t
  read_fault : Nat → String → Bool
  required_size : Nat → Nat

/-- One entry of the trace of a run: a call on the store, or the line loadConfig reports
for a setting, `key = v` when it adopted the stored value (`adopted` true) and
`key set to default v` when it did not.  The other log lines are not recorded. -/
inductive Event
  | flash_erase
  | opened (h : Nat)
  | open_failed
  | closed (h : Nat)
  | get (h : Nat) (key : String)
  | set (h : Nat) (key : String)
  | erase_all (h : Nat)
  | commit (h : Nat)
  | report (key : String) (adopted : Bool) (v : Int)
  deriving DecidableEq

/-- The globals of configmanager.cpp (`cfg`, `my_handle`, `err`), the contents of the
namespace `"config"`, the handles currently open, and bookkeeping: the next handle the
library hands out, how often `nvs_flash_init` and `nvs_open` were called, and the trace
of calls on the store. -/
structure World where
  cfg : configData_t
  my_handle : Nat
  err : esp_err_t
  store : String → Option Val
  handles : List Nat
  next_handle : Nat
  inits : Nat
  opens : Nat
  trace : List Event

/-- Conversion of an `int` constant to `int8_t`. -/
def int8_t (x : Int) : Int := (x + 128) % 256 - 128

/-- Append one call to the trace. -/
@[irreducible]
def World.log (w : World) (e : Event) : World := { w with trace := w.trace ++ [e] }

/-- The namespace with `key` bound to `v`. -/
def put (s : String → Option Val) (key : String) (v : Val) : String → Option Val :=
  fun k => if k = key then some v else s k

/-! ## The NVS calls -/

/-- The call `nvs_open("config", NVS_READWRITE, &my_handle)`: on success a fresh handle is open and
stored in `my_handle`; the return code goes to `err`. -/
@[irreducible]
def nvs_open (E : Env) (w : World) : World :=
  if E.nvs_open w.opens = ESP_OK then
    { w with
      opens := w.opens + 1
      err := ESP_OK
      my_handle := w.next_handle
      handles := w.next_handle :: w.handles
      next_handle := w.next_handle + 1
      trace := w.trace ++ [Event.opened w.next_handle] }
  else
    { w with
      opens := w.opens + 1
      err := E.nvs_open w.opens
      trace := w.trace ++ [Event.open_failed] }

/-- The call `nvs_close(h)`: the handle is no longer open; closing a handle that is not open does
nothing. -/
@[irreducible]
def nvs_close (w : World) (h : Nat) : World :=
  { w with
    handles := w.handles.filter (fun x => x ≠ h)
    trace := w.trace ++ [Event.closed h] }

/-- The result of `nvs_get_i8(h, key, &out)`. -/
def nvs_get_i8 (E : Env) (w : World) (h : Nat) (key : String) : Except esp_err_t Int :=
  if h ∉ w.handles then .error ESP_ERR_NVS_INVALID_HANDLE
  else if E.read_fault h key then .error ESP_FAIL
  else match w.store key with
    | some (Val.i8 v) => .ok v
    | _ => .error ESP_ERR_NVS_NOT_FOUND

/-- The result of `nvs_get_i16(h, key, &out)`. -/
def nvs_get_i16 (E : Env) (w : World) (h : Nat) (key : String) : Except esp_err_t Int :=
  if h ∉ w.handles then .error ESP_ERR_NVS_INVALID_HANDLE
  else if E.read_fault h key then .error ESP_FAIL
  else match w.store key with
    | some (Val.i16 v) => .ok v
    | _ => .error ESP_ERR_NVS_NOT_FOUND

/-- The result of `nvs_get_str(h, key, NULL, &required_size)`: the size needed for the
string and its terminator. -/
def nvs_get_str_size (E : Env) (w : World) (h : Nat) (key : String) : Except esp_err_t Nat :=
  if h ∉ w.handles then .error ESP_ERR_NVS_INVALID_HANDLE
  else if E.read_fault h key then .error ESP_FAIL
  else match w.store key with
    | some (Val.str s) => .ok (s.length + 1)
    | _ => .error ESP_ERR_NVS_NOT_FOUND

/-- The result of `nvs_get_str(h, key, buf, &length)` where `buf` has room for `cap`
bytes: the string is copied when `length` allows it; `none` when the copy overruns
`buf`. -/
def nvs_get_str (E : Env) (w : World) (h : Nat) (key : String) (length cap : Nat) :
    Option (Except esp_err_t String) :=
  if h ∉ w.handles then some (.error ESP_ERR_NVS_INVALID_HANDLE)
  else if E.read_fault h key then some (.error ESP_FAIL)
  else match w.store key with
    | some (Val.str s) =>
      if length < s.length + 1 then some (.error ESP_ERR_NVS_INVALID_LENGTH)
      else if cap < s.length + 1 then none
      else some (.ok s)
    | _ => some (.error ESP_ERR_NVS_NOT_FOUND)

/-- The calls `nvs_set_str`, `nvs_set_i8`, `nvs_set_i16` (the type is in `v`): `key` is
bound to `v` when the handle is open, replacing what it held. -/
@[irreducible]
def nvs_set (w : World) (h : Nat) (key : String) (v : Val) : World :=
  if h ∈ w.handles then
    { w with store := put w.store key v, trace := w.trace ++ [Event.set h key] }
  else
    w.log (Event.set h key)

/-- The call `nvs_erase_all(h)`: removes every key of the namespace when the handle is open. -/
@[irreducible]
def nvs_erase_all (w : World) (h : Nat) : World :=
  if h ∈ w.handles then
    { w with store := fun _ => none, trace := w.trace ++ [Event.erase_all h] }
  else
    w.log (Event.erase_all h)

/-- The return code of `nvs_commit(h)`; writes are already visible, so the namespace does
not change. -/
def nvs_commit (w : World) (h : Nat) : esp_err_t :=
  if h ∈ w.handles then ESP_OK else ESP_ERR_NVS_INVALID_HANDLE

/-! ## The twelve settings -/

/-- The twelve integer settings of the record. -/
inductive Field
  | lorasf | txpower | adrmode | screensaver | screenon | countermode
  | wifiscancycle | wifichancycle | blescancycle | blescan | wifiant | rssilimit
  deriving DecidableEq

/-- The key a setting is stored under (saveConfig and loadConfig use the same names). -/
def Field.key : Field → String
  | .lorasf => "lorasf"
  | .txpower => "txpower"
  | .adrmode => "adrmode"
  | .screensaver => "screensaver"
  | .screenon => "screenon"
  | .countermode => "countermode"
  | .wifiscancycle => "wifiscancycle"
  | .wifichancycle => "wifichancycle"
  | .blescancycle => "blescancycle"
  | .blescan => "blescanmode"
  | .wifiant => "wifiant"
  | .rssilimit => "rssilimit"

/-- The member `cfg.<field>`. -/
def Field.get : Field → configData_t → Int
  | .lorasf, c => c.lorasf
  | .txpower, c => c.txpower
  | .adrmode, c => c.adrmode
  | .screensaver, c => c.screensaver
  | .screenon, c => c.screenon
  | .countermode, c => c.countermode
  | .wifiscancycle, c => c.wifiscancycle
  | .wifichancycle, c => c.wifichancycle
  | .blescancycle, c => c.blescancycle
  | .blescan, c => c.blescan
  | .wifiant, c => c.wifiant
  | .rssilimit, c => c.rssilimit

/-- The assignment `cfg.<field> = v`. -/
def Field.assign : Field → configData_t → Int → configData_t
  | .lorasf, c, v => { c with lorasf := v }
  | .txpower, c, v => { c with txpower := v }
  | .adrmode, c, v => { c with adrmode := v }
  | .screensaver, c, v => { c with screensaver := v }
  | .screenon, c, v => { c with screenon := v }
  | .countermode, c, v => { c with countermode := v }
  | .wifiscancycle, c, v => { c with wifiscancycle := v }
  | .wifichancycle, c, v => { c with wifichancycle := v }
  | .blescancycle, c, v => { c with blescancycle := v }
  | .blescan, c, v => { c with blescan := v }
  | .wifiant, c, v => { c with wifiant := v }
  | .rssilimit, c, v => { c with rssilimit := v }

/-- The NVS type a setting is stored with: `rssilimit` as i16, the others as i8. -/
def Field.val : Field → Int → Val
  | .rssilimit, v => Val.i16 v
  | _, v => Val.i8 v

/-- The typed read used for a setting: `nvs_get_i16` for `rssilimit`, `nvs_get_i8` for the
others. -/
def Field.nvs_get (f : Field) (E : Env) (w : World) (h : Nat) : Except esp_err_t Int :=
  match f with
  | .rssilimit => nvs_get_i16 E w h f.key
  | _ => nvs_get_i8 E w h f.key

/-! ## configmanager.cpp -/

/-- The function `defaultConfig()`: populate cfg with factory settings.  `strncpy` copies
at most `sizeof(cfg.version)-1 = 9` characters of PROGVERSION. -/
@[irreducible]
def defaultConfig (B : Build) (w : World) : World :=
  { w with cfg :=
    { lorasf := int8_t B.LORASFDEFAULT
      txpower := 15
      adrmode := 1
      screensaver := 0
      screenon := 1
      countermode := 0
      rssilimit := 0
      wifiscancycle := int8_t B.SEND_SECS
      wifichancycle := int8_t B.WIFI_CHANNEL_SWITCH_INTERVAL
      blescancycle := int8_t B.BLESCANTIME
      blescan := 0
      wifiant := 0
      version := String.mk (B.PROGVERSION.data.take 9) } }

/-- The function `open_storage()`: initialise the medium (one erase-and-retry on
`ESP_ERR_NVS_NO_FREE_PAGES`, abort through `ESP_ERROR_CHECK` on any other failure), then
open the namespace; the result of the open is left in `err`. -/
@[irreducible]
def open_storage (E : Env) (w : World) : Option World := do
  let w := { w with err := E.nvs_flash_init w.inits, inits := w.inits + 1 }
  let w ←
    if w.err = ESP_ERR_NVS_NO_FREE_PAGES then
      if E.nvs_flash_erase = ESP_OK then
        some { w with
          store := fun _ => none
          trace := w.trace ++ [Event.flash_erase]
          err := E.nvs_flash_init w.inits
          inits := w.inits + 1 }
      else none
    else some w
  if w.err ≠ ESP_OK then none
  else some (nvs_open E w)

/-- The function `eraseConfig()`: erase all keys and values of the namespace. -/
@[irreducible]
def eraseConfig (E : Env) (w : World) : Option World := do
  let w ← open_storage E w
  if w.err = ESP_OK then
    let w := nvs_erase_all w w.my_handle
    let w := w.log (Event.commit w.my_handle)
    let w := nvs_close w w.my_handle
    some w
  else some w

/-- The condition `nvs_get_iN(my_handle, key, &flash) != ESP_OK || flash != cfg.f` under
which saveConfig writes a setting. -/
def Field.stale (f : Field) (E : Env) (w : World) : Bool :=
  match f.nvs_get E w w.my_handle with
  | .ok flash => decide (flash ≠ f.get w.cfg)
  | .error _ => true

/-- One setting of saveConfig:
`if( nvs_get_iN(my_handle, key, &flash) != ESP_OK || flash != cfg.f )`
`nvs_set_iN(my_handle, key, cfg.f);` -/
@[irreducible]
def save_field (E : Env) (f : Field) (w : World) : World :=
  let stale := f.stale E w
  let w := w.log (Event.get w.my_handle f.key)
  if stale then nvs_set w w.my_handle f.key (f.val (f.get w.cfg)) else w

/-- The version tag in saveConfig:
`if( nvs_get_str(my_handle, "version", storedversion, &required_size) != ESP_OK`
`|| strcmp(storedversion, cfg.version) != 0 ) nvs_set_str(my_handle, "version", cfg.version);`
The local `required_size` is passed without having been set: its value is whatever the
environment gives for this call, told apart from the other calls by the number of
`nvs_open` calls made so far.  The buffer `storedversion` has 10 bytes. -/
@[irreducible]
def save_version (E : Env) (w : World) : Option World := do
  let r ← nvs_get_str E w w.my_handle "version" (E.required_size w.opens) 10
  let stale := match r with
    | .ok storedversion => decide (storedversion ≠ w.cfg.version)
    | .error _ => true
  let w := w.log (Event.get w.my_handle "version")
  some (if stale then nvs_set w w.my_handle "version" (Val.str w.cfg.version) else w)

/-- The function `saveConfig()`: save the current configuration from RAM to NVRAM,
writing only what differs from what is stored; one commit at the end. -/
@[irreducible]
def saveConfig (E : Env) (w : World) : Option World := do
  let w ← open_storage E w
  if w.err = ESP_OK then
    let w ← save_version E w
    let w := save_field E .lorasf w
    let w := save_field E .txpower w
    let w := save_field E .adrmode w
    let w := save_field E .screensaver w
    let w := save_field E .screenon w
    let w := save_field E .countermode w
    let w := save_field E .wifiscancycle w
    let w := save_field E .wifichancycle w
    let w := save_field E .blescancycle w
    let w := save_field E .blescan w
    let w := save_field E .wifiant w
    let w := save_field E .rssilimit w
    let w := { w.log (Event.commit w.my_handle) with err := nvs_commit w w.my_handle }
    let w := nvs_close w w.my_handle
    some w
  else some w

/-- The function `migrateVersion()`: set and save cfg.version.  `sprintf` writes all of
PROGVERSION into the 10-byte `cfg.version`. -/
@[irreducible]
def migrateVersion (B : Build) (E : Env) (w : World) : Option World :=
  if 10 < B.PROGVERSION.length + 1 then none
  else saveConfig E { w with cfg := { w.cfg with version := B.PROGVERSION } }

/-- One setting of loadConfig:
`if( nvs_get_iN(my_handle, key, &flash) == ESP_OK ) { cfg.f = flash; ESP_LOGI(.. flash); }`
`else { ESP_LOGI(.. cfg.f); saveConfig(); }` -/
@[irreducible]
def load_field (E : Env) (f : Field) (w : World) : Option World :=
  match f.nvs_get E w w.my_handle with
  | .ok v =>
    some { (w.log (Event.get w.my_handle f.key)).log (Event.report f.key true v) with
      cfg := f.assign w.cfg v }
  | .error _ =>
    saveConfig E
      ((w.log (Event.get w.my_handle f.key)).log (Event.report f.key false (f.get w.cfg)))

/-- The version check of loadConfig (the block under "check if configuration stored in
NVRAM matches PROGVERSION"). -/
@[irreducible]
def check_version (B : Build) (E : Env) (w : World) : Option World :=
  match nvs_get_str_size E w w.my_handle "version" with
  | .ok required_size => do
    let r ← nvs_get_str E w w.my_handle "version" required_size 10
    let w := (w.log (Event.get w.my_handle "version")).log (Event.get w.my_handle "version")
    let w := match r with
      | .ok s => { w with cfg := { w.cfg with version := s } }
      | .error _ => w
    if w.cfg.version ≠ B.PROGVERSION then
      migrateVersion B E (nvs_close w w.my_handle)
    else some w
  | .error _ => do
    let w := w.log (Event.get w.my_handle "version")
    let w := nvs_close w w.my_handle
    let w ← eraseConfig E w
    migrateVersion B E w

/-- The block of loadConfig under "overwrite defaults with valid values from NVRAM": the
twelve settings in the order of the source, then `nvs_close(my_handle)`. -/
@[irreducible]
def load_settings (E : Env) (w : World) : Option World := do
  let w ← load_field E .lorasf w
  let w ← load_field E .txpower w
  let w ← load_field E .adrmode w
  let w ← load_field E .screensaver w
  let w ← load_field E .screenon w
  let w ← load_field E .countermode w
  let w ← load_field E .wifiscancycle w
  let w ← load_field E .wifichancycle w
  let w ← load_field E .wifiant w
  let w ← load_field E .blescancycle w
  let w ← load_field E .blescan w
  let w ← load_field E .rssilimit w
  let w := nvs_close w w.my_handle
  some w

/-- The function `loadConfig()`: load the configuration from NVRAM into RAM and make it
current.  The call of `antenna_select` under `HAS_ANTENNA_SWITCH` acts on hardware only
and is left out. -/
@[irreducible]
def loadConfig (B : Build) (E : Env) (w : World) : Option World := do
  let w := defaultConfig B w
  let w ← open_storage E w
  if w.err ≠ ESP_OK then
    saveConfig E w
  else
    let w ← check_version B E w
    load_settings E w

/-! ## Predicates used to state the properties -/

/-- The medium initialises: every `nvs_flash_init` returns `ESP_OK`. -/
def MediumOk (E : Env) : Prop := ∀ n, E.nvs_flash_init n = ESP_OK

/-- The namespace opens: every `nvs_open` returns `ESP_OK`. -/
def OpensOk (E : Env) : Prop := ∀ n, E.nvs_open n = ESP_OK

/-- No read fails with an I/O error. -/
def ReadsOk (E : Env) : Prop := ∀ h k, E.read_fault h k = false

/-- The namespace `s` holds the record `c`: the version tag under `"version"` and every
setting under its key, with its declared type. -/
def Holds (s : String → Option Val) (c : configData_t) : Prop :=
  s "version" = some (Val.str c.version) ∧ ∀ f : Field, s f.key = some (f.val (f.get c))

/-- The thirteen keys used by configmanager.cpp. -/
def config_keys : List String :=
  ["version", "lorasf", "txpower", "adrmode", "screensaver", "screenon", "countermode",
   "wifiscancycle", "wifichancycle", "blescancycle", "blescanmode", "wifiant", "rssilimit"]

/-- The namespace `s` after the record `c` has been written over it, key by key in the
order of saveConfig. -/
def written (c : configData_t) (s : String → Option Val) : String → Option Val :=
  let s := put s "version" (Val.str c.version)
  let s := put s "lorasf" (Val.i8 c.lorasf)
  let s := put s "txpower" (Val.i8 c.txpower)
  let s := put s "adrmode" (Val.i8 c.adrmode)
  let s := put s "screensaver" (Val.i8 c.screensaver)
  let s := put s "screenon" (Val.i8 c.screenon)
  let s := put s "countermode" (Val.i8 c.countermode)
  let s := put s "wifiscancycle" (Val.i8 c.wifiscancycle)
  let s := put s "wifichancycle" (Val.i8 c.wifichancycle)
  let s := put s "blescancycle" (Val.i8 c.blescancycle)
  let s := put s "blescanmode" (Val.i8 c.blescan)
  let s := put s "wifiant" (Val.i8 c.wifiant)
  put s "rssilimit" (Val.i16 c.rssilimit)

/-- A call that changes the contents of the store. -/
def Event.isWrite : Event → Bool
  | .set _ _ => true
  | .erase_all _ => true
  | .flash_erase => true
  | _ => false

/-- A call that reads or changes the contents of the store. -/
def Event.isAccess : Event → Bool
  | .get _ _ => true
  | e => e.isWrite

/-! ## Invariants used in the proofs -/

/-- The world `w` is `w0` with the namespace replaced by `s` and some calls appended to
the trace.  Every setting of `done` was either written or found in the namespace of `w0`
with the value in memory, and `s` is the namespace of `w0` at the keys of the other
settings. -/
def Upd (w0 w : World) (s : String → Option Val) (done : List Field) : Prop :=
  ∃ evs, w = { w0 with store := s, trace := w0.trace ++ evs } ∧
    (∀ f ∈ done, Event.set w0.my_handle f.key ∈ evs ∨
      w0.store f.key = some (f.val (f.get w0.cfg))) ∧
    ∀ f, f ∉ done → s f.key = w0.store f.key

/-- The world `w` is `w0` with some calls appended to the trace, none of which changes the
contents of the store. -/
def Kept (w0 w : World) : Prop :=
  ∃ evs, w = { w0 with trace := w0.trace ++ evs } ∧ ∀ e ∈ evs, Event.isWrite e = false

/-- A world whose handle in `my_handle` is closed, with record `c` in memory and
namespace `s`. -/
def Settled (c : configData_t) (s : String → Option Val) (w : World) : Prop :=
  w.my_handle ∉ w.handles ∧ w.cfg = c ∧ w.store = s

/-- The state of loadConfig between two settings: the version in memory is that of the
build, and either a save has closed `my_handle` and left the namespace holding the record,
or `my_handle` is still open and the namespace holds the version tag and what has been
read from it so far (the settings of `fs`). -/
def Reconciled (B : Build) (fs : List Field) (w : World) : Prop :=
  w.cfg.version = B.PROGVERSION ∧
  ((w.my_handle ∉ w.handles ∧ Holds w.store w.cfg) ∨
   (w.my_handle ∈ w.handles ∧ w.store "version" = some (Val.str B.PROGVERSION) ∧
     ∀ f ∈ fs, w.store f.key = some (f.val (f.get w.cfg))))

/-- The world in which loadConfig runs its version check: factory settings in memory and
the namespace open under a fresh handle. -/
def load_start (B : Build) (w : World) : World :=
  { w with
    cfg := (defaultConfig B w).cfg
    inits := w.inits + 1
    opens := w.opens + 1
    err := ESP_OK
    my_handle := w.next_handle
    handles := w.next_handle :: w.handles
    next_handle := w.next_handle + 1
    trace := w.trace ++ [Event.opened w.next_handle] }

/-- The world `w` is `w1` with another record in memory, which agrees with `R` on the
version and on the settings of `fs`, and some calls appended to the trace, none of which
changes the contents of the store. -/
def Adopting (R : configData_t) (w1 : World) (fs : List Field) (w : World) : Prop :=
  ∃ c evs, w = { w1 with cfg := c, trace := w1.trace ++ evs } ∧ c.version = R.version ∧
    (∀ f ∈ fs, f.get c = f.get R) ∧ ∀ e ∈ evs, Event.isWrite e = false

/-- The state of loadConfig between two settings when its read of the setting `f` fails
(`h1` is the handle loadConfig opened, `s0` the namespace it found, `t0` the trace before
it): `f` still has the value `d` in memory, the version in memory and the tag in the
namespace have at most 9 characters, `my_handle` is `h1` as long as it is open, every
setting of `fs` has been reported, `f` as set to default once it is among them, and `f`
was written unless the namespace held it with the value `d` all along. -/
def Faulted (f : Field) (d : Int) (h1 : Nat) (s0 : String → Option Val) (t0 : List Event)
    (fs : List Field) (w : World) : Prop :=
  f.get w.cfg = d ∧ w.cfg.version.length ≤ 9 ∧
  (∀ s, w.store "version" = some (Val.str s) → s.length ≤ 9) ∧
  (w.my_handle ∈ w.handles → w.my_handle = h1) ∧
  ∃ evs, w.trace = t0 ++ evs ∧
    (∀ g ∈ fs, ∃ a v, Event.report g.key a v ∈ evs) ∧
    (f ∈ fs → Event.report f.key false d ∈ evs) ∧
    ((∃ h, Event.set h f.key ∈ evs) ∨ w.store f.key = s0 f.key) ∧
    (f ∈ fs → (∃ h, Event.set h f.key ∈ evs) ∨ s0 f.key = some (f.val d))

/-! ## Concrete builds, environments and stores -/

/-- A build that reports version "1.1". -/
def build_1_1 : Build :=
  { PROGVERSION := "1.1"
    LORASFDEFAULT := 9
    SEND_SECS := 120
    WIFI_CHANNEL_SWITCH_INTERVAL := 50
    BLESCANTIME := 15 }

/-- An environment in which the medium initialises, the namespace opens, every key can
be read and the local `required_size` of saveConfig holds 10. -/
def healthy : Env :=
  { nvs_flash_init := fun _ => ESP_OK
    nvs_flash_erase := ESP_OK
    nvs_open := fun _ => ESP_OK
    read_fault := fun _ _ => false
    required_size := fun _ => 10 }

/-- An environment in which the namespace opens on the second attempt only. -/
def opens_on_retry : Env :=
  { healthy with nvs_open := fun n => if n = 0 then ESP_FAIL else ESP_OK }

/-- An environment in which reading the key "txpower" fails with an I/O error. -/
def txpower_unreadable : Env :=
  { healthy with read_fault := fun _ k => decide (k = "txpower") }

/-- An environment in which the local `required_size` of saveConfig holds 0. -/
def required_size_zero : Env :=
  { healthy with required_size := fun _ => 0 }

/-- The namespace given by a list of bindings. -/
def store_of (l : List (String × Val)) : String → Option Val :=
  fun k => l.lookup k

/-- The world at start-up: record `c` in memory, namespace `s`, no handle open, nothing
traced. -/
def boot (c : configData_t) (s : String → Option Val) : World :=
  { cfg := c
    my_handle := 0
    err := ESP_OK
    store := s
    handles := []
    next_handle := 1
    inits := 0
    opens := 0
    trace := [] }

/-- A record with every setting tuned away from its factory value. -/
def tuned (version : String) : configData_t :=
  { lorasf := 12
    txpower := 7
    adrmode := 0
    screensaver := 1
    screenon := 0
    countermode := 2
    rssilimit := -80
    wifiscancycle := 60
    wifichancycle := 100
    blescancycle := 30
    blescan := 1
    wifiant := 1
    version := version }

/-- A record of zeros with an empty version. -/
def blank : configData_t :=
  { lorasf := 0
    txpower := 0
    adrmode := 0
    screensaver := 0
    screenon := 0
    countermode := 0
    rssilimit := 0
    wifiscancycle := 0
    wifichancycle := 0
    blescancycle := 0
    blescan := 0
    wifiant := 0
    version := "" }

/-- A namespace holding `tuned version`. -/
def tuned_store (version : String) : String → Option Val :=
  store_of
    [("version", Val.str version), ("lorasf", Val.i8 12), ("txpower", Val.i8 7),
     ("adrmode", Val.i8 0), ("screensaver", Val.i8 1), ("screenon", Val.i8 0),
     ("countermode", Val.i8 2), ("wifiscancycle", Val.i8 60), ("wifichancycle", Val.i8 100),
     ("blescancycle", Val.i8 30), ("blescanmode", Val.i8 1), ("wifiant", Val.i8 1),
     ("rssilimit", Val.i16 (-80))]

/-- A namespace written under version "1.0": the tuned settings and one more key. -/
def legacy_store : String → Option Val :=
  put (tuned_store "1.0") "legacy" (Val.i8 5)

/-- A namespace with the version tag of build "1.1" and every setting tuned, except that
the key "txpower" is missing. -/
def store_without_txpower : String → Option Val :=
  store_of
    [("version", Val.str "1.1"), ("lorasf", Val.i8 12),
     ("adrmode", Val.i8 0), ("screensaver", Val.i8 1), ("screenon", Val.i8 0),
     ("countermode", Val.i8 2), ("wifiscancycle", Val.i8 60), ("wifichancycle", Val.i8 100),
     ("blescancycle", Val.i8 30), ("blescanmode", Val.i8 1), ("wifiant", Val.i8 1),
     ("rssilimit", Val.i16 (-80))]

/-- The factory settings of a build, as the claims list them: the record defaultConfig
produces when PROGVERSION has at most 9 characters. -/
def factory (B : Build) : configData_t :=
  { lorasf := int8_t B.LORASFDEFAULT
    txpower := 15
    adrmode := 1
    screensaver := 0
    screenon := 1
    countermode := 0
    rssilimit := 0
    wifiscancycle := int8_t B.SEND_SECS
    wifichancycle := int8_t B.WIFI_CHANNEL_SWITCH_INTERVAL
    blescancycle := int8_t B.BLESCANTIME
    blescan := 0
    wifiant := 0
    version := B.PROGVERSION }

/-- The handles open after the calls of a trace, when none was open before. -/
def open_after (t : List Event) : List Nat :=
  t.foldl (fun hs e =>
    match e with
    | .opened h => h :: hs
    | .closed h => hs.filter (fun x => x ≠ h)
    | _ => hs) []

/-- The largest number of handles open at the same time in the course of a trace. -/
def peak_open (t : List Event) : Nat :=
  ((List.range (t.length + 1)).map fun n => (open_after (t.take n)).length).foldl max 0

/-! ## Lemmas on the NVS calls and on saveConfig -/

theorem put_eq_self {s : String → Option Val} {k : String} {v : Val} (h : s k = some v) :
    put s k v = s := by
  funext x
  unfold put
  split
  · next hx => rw [hx, h]
  · rfl

theorem holds_written (c : configData_t) (s : String → Option Val) :
    Holds (written c s) c := by
  refine ⟨by simp [written, put], fun f => ?_⟩
  cases f <;> simp [written, put, Field.key, Field.val, Field.get]

theorem written_of_holds {c : configData_t} {s : String → Option Val} (h : Holds s c) :
    written c s = s := by
  obtain ⟨hv, hf⟩ := h
  have h1 := hf .lorasf
  have h2 := hf .txpower
  have h3 := hf .adrmode
  have h4 := hf .screensaver
  have h5 := hf .screenon
  have h6 := hf .countermode
  have h7 := hf .wifiscancycle
  have h8 := hf .wifichancycle
  have h9 := hf .blescancycle
  have h10 := hf .blescan
  have h11 := hf .wifiant
  have h12 := hf .rssilimit
  simp only [Field.key, Field.val, Field.get] at h1 h2 h3 h4 h5 h6 h7 h8 h9 h10 h11 h12
  simp only [written, put_eq_self hv, put_eq_self h1, put_eq_self h2, put_eq_self h3,
    put_eq_self h4, put_eq_self h5, put_eq_self h6, put_eq_self h7, put_eq_self h8,
    put_eq_self h9, put_eq_self h10, put_eq_self h11, put_eq_self h12]

theorem written_other (c : configData_t) (s : String → Option Val) (k : String)
    (hk : k ∉ config_keys) : written c s k = s k := by
  simp only [config_keys, List.mem_cons, List.mem_singleton, not_or, List.not_mem_nil,
    not_false_eq_true, and_true] at hk
  simp [written, put, hk]

theorem open_storage_ok {E : Env} (hm : MediumOk E) (w : World)
    (ho : E.nvs_open w.opens = ESP_OK) :
    open_storage E w = some
      { w with
        inits := w.inits + 1
        opens := w.opens + 1
        err := ESP_OK
        my_handle := w.next_handle
        handles := w.next_handle :: w.handles
        next_handle := w.next_handle + 1
        trace := w.trace ++ [Event.opened w.next_handle] } := by
  simp [open_storage, hm w.inits, nvs_open, ho]

theorem open_storage_fail {E : Env} (hm : MediumOk E) (w : World)
    (ho : E.nvs_open w.opens ≠ ESP_OK) :
    open_storage E w = some
      { w with
        inits := w.inits + 1
        opens := w.opens + 1
        err := E.nvs_open w.opens
        trace := w.trace ++ [Event.open_failed] } := by
  simp [open_storage, hm w.inits, nvs_open, ho]

theorem Field.nvs_get_ok_iff (f : Field) (E : Env) (w : World) (h : Nat) (v : Int) :
    f.nvs_get E w h = .ok v ↔
      h ∈ w.handles ∧ E.read_fault h f.key = false ∧ w.store f.key = some (f.val v) := by
  cases f <;> simp only [Field.nvs_get, nvs_get_i8, nvs_get_i16, Field.val] <;>
    by_cases hh : h ∈ w.handles <;> simp [hh] <;>
    cases hr : E.read_fault _ _ <;> simp <;>
    split <;> simp_all

theorem Field.nvs_get_dead (f : Field) (E : Env) (w : World) (h : Nat) (hh : h ∉ w.handles) :
    f.nvs_get E w h = .error ESP_ERR_NVS_INVALID_HANDLE := by
  cases f <;> simp [Field.nvs_get, nvs_get_i8, nvs_get_i16, hh]

theorem Field.mem_all (f : Field) :
    f ∈ [Field.rssilimit, .wifiant, .blescan, .blescancycle, .wifichancycle, .wifiscancycle,
      .countermode, .screenon, .screensaver, .adrmode, .txpower, .lorasf] := by
  cases f <;> simp

theorem Field.key_ne_version (f : Field) : f.key ≠ "version" := by
  cases f <;> simp [Field.key]

theorem Field.key_inj {f g : Field} (h : f.key = g.key) : f = g := by
  cases f <;> cases g <;> simp [Field.key] at h ⊢

/-- One setting of saveConfig on an open handle: the key ends up bound to the value in
memory; it is written unless the namespace held it with that value. -/
theorem save_field_eq (E : Env) (f : Field) (w : World) (hl : w.my_handle ∈ w.handles) :
    ∃ evs, save_field E f w =
      { w with
        store := put w.store f.key (f.val (f.get w.cfg))
        trace := w.trace ++ Event.get w.my_handle f.key :: evs } ∧
      (Event.set w.my_handle f.key ∈ evs ∨ w.store f.key = some (f.val (f.get w.cfg))) := by
  unfold save_field Field.stale
  cases hr : f.nvs_get E w w.my_handle with
  | error e =>
    exact ⟨[Event.set w.my_handle f.key], by simp [World.log, nvs_set, hl], by simp⟩
  | ok v =>
    have hg := (f.nvs_get_ok_iff E w w.my_handle _).1 hr
    by_cases hv : v = f.get w.cfg
    · subst hv
      exact ⟨[], by simp [World.log, put_eq_self hg.2.2], Or.inr hg.2.2⟩
    · exact ⟨[Event.set w.my_handle f.key], by simp [World.log, nvs_set, hl, hv], by simp⟩

theorem save_field_upd {E : Env} {w0 w : World} {s : String → Option Val} {done : List Field}
    (g : Field) (hg : g ∉ done) (hl : w0.my_handle ∈ w0.handles) (h : Upd w0 w s done) :
    Upd w0 (save_field E g w) (put s g.key (g.val (g.get w0.cfg))) (g :: done) := by
  obtain ⟨evs, rfl, hT, hs⟩ := h
  obtain ⟨e2, h2, hf2⟩ := save_field_eq E g
    { w0 with store := s, trace := w0.trace ++ evs } hl
  refine ⟨evs ++ Event.get w0.my_handle g.key :: e2, ?_, ?_, ?_⟩
  · rw [h2]; simp
  · intro f hf
    rcases List.mem_cons.1 hf with rfl | hf
    · rcases hf2 with hset | hst
      · exact Or.inl (by simp [hset])
      · exact Or.inr (by rw [← hs f hg]; exact hst)
    · rcases hT f hf with hset | hst
      · exact Or.inl (by simp [hset])
      · exact Or.inr hst
  · intro f hf
    have hfg : f ≠ g := fun h => hf (by simp [h])
    have hfd : f ∉ done := fun h => hf (by simp [h])
    have hk : f.key ≠ g.key := fun h => hfg (Field.key_inj h)
    simp [put, hk, hs f hfd]

theorem save_version_upd (E : Env) (w : World) (hl : w.my_handle ∈ w.handles)
    (hS : ∀ s, w.store "version" = some (Val.str s) → s.length ≤ 9) :
    ∃ w', save_version E w = some w' ∧
      Upd w w' (put w.store "version" (Val.str w.cfg.version)) [] := by
  have hput : ∀ f : Field, put w.store "version" (Val.str w.cfg.version) f.key
      = w.store f.key := fun f => by simp [put, f.key_ne_version]
  unfold save_version nvs_get_str
  simp only [hl, not_true_eq_false, if_false]
  by_cases hr : E.read_fault w.my_handle "version" = true
  · simp [hr, Upd, World.log, nvs_set, hl, hput]
  · simp only [hr]
    cases hs : w.store "version" with
    | none => simp [Upd, World.log, nvs_set, hl, hput]
    | some v =>
      cases v with
      | i8 v => simp [Upd, World.log, nvs_set, hl, hput]
      | i16 v => simp [Upd, World.log, nvs_set, hl, hput]
      | str sv =>
        have hlen : ¬ (10 < sv.length + 1) := by have := hS sv hs; omega
        by_cases hq : E.required_size w.opens < sv.length + 1
        · simp [hq, Upd, World.log, nvs_set, hl, hput]
        · by_cases hv : sv = w.cfg.version
          · subst hv
            simp [hq, hlen, Upd, World.log, put_eq_self hs]
          · simp [hq, hlen, hv, Upd, World.log, nvs_set, hl, hput]

/-- What saveConfig does when the medium initialises, the namespace opens and the stored
version tag fits the buffer: the record is left alone, the namespace ends up holding it,
the handle it opened is closed again, and every setting has been written unless the
namespace held it with the value in memory. -/
theorem saveConfig_spec {E : Env} (hm : MediumOk E) (w : World)
    (ho : E.nvs_open w.opens = ESP_OK)
    (hS : ∀ s, w.store "version" = some (Val.str s) → s.length ≤ 9) :
    ∃ evs, saveConfig E w = some
      { w with
        inits := w.inits + 1
        opens := w.opens + 1
        err := ESP_OK
        my_handle := w.next_handle
        handles := w.handles.filter (fun x => x ≠ w.next_handle)
        next_handle := w.next_handle + 1
        store := written w.cfg w.store
        trace := w.trace ++ Event.opened w.next_handle :: evs } ∧
      ∀ f : Field, Event.set w.next_handle f.key ∈ evs ∨
        w.store f.key = some (f.val (f.get w.cfg)) := by
  have hl : w.next_handle ∈ w.next_handle :: w.handles := by simp
  obtain ⟨w1, h1, hu⟩ := save_version_upd E
    { w with
      inits := w.inits + 1
      opens := w.opens + 1
      err := ESP_OK
      my_handle := w.next_handle
      handles := w.next_handle :: w.handles
      next_handle := w.next_handle + 1
      trace := w.trace ++ [Event.opened w.next_handle] } hl hS
  have hu := save_field_upd (E := E) .rssilimit (by decide) hl
    (save_field_upd (E := E) .wifiant (by decide) hl
    (save_field_upd (E := E) .blescan (by decide) hl
    (save_field_upd (E := E) .blescancycle (by decide) hl
    (save_field_upd (E := E) .wifichancycle (by decide) hl
    (save_field_upd (E := E) .wifiscancycle (by decide) hl
    (save_field_upd (E := E) .countermode (by decide) hl
    (save_field_upd (E := E) .screenon (by decide) hl
    (save_field_upd (E := E) .screensaver (by decide) hl
    (save_field_upd (E := E) .adrmode (by decide) hl
    (save_field_upd (E := E) .txpower (by decide) hl
    (save_field_upd (E := E) .lorasf (by decide) hl hu)))))))))))
  obtain ⟨evs, he, hT, -⟩ := hu
  refine ⟨evs ++ [Event.commit w.next_handle, Event.closed w.next_handle], ?_, ?_⟩
  · unfold saveConfig
    rw [open_storage_ok hm w ho]
    simp only [Option.bind_eq_bind, Option.some_bind, if_true, h1, he]
    simp [nvs_close, nvs_commit, World.log, written, Field.key, Field.val, Field.get]
  · intro f
    rcases hT f f.mem_all with hset | hst
    · exact Or.inl (by simp [hset])
    · exact Or.inr hst

theorem saveConfig_fail {E : Env} (hm : MediumOk E) (w : World)
    (ho : E.nvs_open w.opens ≠ ESP_OK) :
    saveConfig E w = some
      { w with
        inits := w.inits + 1
        opens := w.opens + 1
        err := E.nvs_open w.opens
        trace := w.trace ++ [Event.open_failed] } := by
  unfold saveConfig
  rw [open_storage_fail hm w ho]
  simp [ho]

theorem save_field_kept {E : Env} {w0 w : World} (g : Field) (hr : ReadsOk E)
    (hl : w0.my_handle ∈ w0.handles) (hs : Holds w0.store w0.cfg) (h : Kept w0 w) :
    Kept w0 (save_field E g w) := by
  obtain ⟨evs, rfl, hT⟩ := h
  have hg : g.nvs_get E { w0 with trace := w0.trace ++ evs } w0.my_handle
      = .ok (g.get w0.cfg) :=
    (g.nvs_get_ok_iff E _ _ _).2 ⟨hl, hr _ _, hs.2 g⟩
  refine ⟨evs ++ [Event.get w0.my_handle g.key], ?_, ?_⟩
  · unfold save_field Field.stale
    simp [hg, World.log]
  · intro e he
    rcases List.mem_append.1 he with he | he
    · exact hT e he
    · simp at he; subst he; rfl

theorem save_version_kept {E : Env} {w : World} (hr : ReadsOk E)
    (hl : w.my_handle ∈ w.handles) (hs : Holds w.store w.cfg)
    (hv : w.cfg.version.length ≤ 9) (hq : 10 ≤ E.required_size w.opens) :
    ∃ w', save_version E w = some w' ∧ Kept w w' := by
  have h10 : ¬ (10 < w.cfg.version.length + 1) := by omega
  have hq' : ¬ (E.required_size w.opens < w.cfg.version.length + 1) := by omega
  refine ⟨{ w with trace := w.trace ++ [Event.get w.my_handle "version"] }, ?_,
    [Event.get w.my_handle "version"], rfl, by simp [Event.isWrite]⟩
  unfold save_version nvs_get_str
  simp [hl, hr _ "version", hs.1, h10, hq', World.log]

/-- A save of a record the namespace already holds issues no write, provided the local
`required_size` happens to hold at least the size of the buffer. -/
theorem saveConfig_clean {E : Env} (hm : MediumOk E) (hr : ReadsOk E) (w : World)
    (ho : E.nvs_open w.opens = ESP_OK) (hs : Holds w.store w.cfg)
    (hv : w.cfg.version.length ≤ 9) (hq : 10 ≤ E.required_size (w.opens + 1)) :
    ∃ evs, saveConfig E w = some
      { w with
        inits := w.inits + 1
        opens := w.opens + 1
        err := ESP_OK
        my_handle := w.next_handle
        handles := w.handles.filter (fun x => x ≠ w.next_handle)
        next_handle := w.next_handle + 1
        trace := w.trace ++ evs } ∧
      ∀ e ∈ evs, Event.isWrite e = false := by
  obtain ⟨wo, hwo⟩ : ∃ wo : World, wo =
    { w with
      inits := w.inits + 1
      opens := w.opens + 1
      err := ESP_OK
      my_handle := w.next_handle
      handles := w.next_handle :: w.handles
      next_handle := w.next_handle + 1
      trace := w.trace ++ [Event.opened w.next_handle] } := ⟨_, rfl⟩
  have hl : wo.my_handle ∈ wo.handles := by subst hwo; simp
  have hs : Holds wo.store wo.cfg := by subst hwo; exact hs
  have hv : wo.cfg.version.length ≤ 9 := by subst hwo; exact hv
  have hq : 10 ≤ E.required_size wo.opens := by subst hwo; exact hq
  obtain ⟨w1, h1, hu⟩ := save_version_kept hr hl hs hv hq
  have hu := save_field_kept .rssilimit hr hl hs (save_field_kept .wifiant hr hl hs
    (save_field_kept .blescan hr hl hs (save_field_kept .blescancycle hr hl hs
    (save_field_kept .wifichancycle hr hl hs (save_field_kept .wifiscancycle hr hl hs
    (save_field_kept .countermode hr hl hs (save_field_kept .screenon hr hl hs
    (save_field_kept .screensaver hr hl hs (save_field_kept .adrmode hr hl hs
    (save_field_kept .txpower hr hl hs (save_field_kept .lorasf hr hl hs hu)))))))))))
  obtain ⟨evs, he, hT⟩ := hu
  refine ⟨Event.opened w.next_handle ::
    (evs ++ [Event.commit w.next_handle, Event.closed w.next_handle]), ?_, ?_⟩
  · unfold saveConfig
    rw [open_storage_ok hm w ho, ← hwo]
    simp only [Option.bind_eq_bind, Option.some_bind, h1, he]
    subst hwo
    simp [nvs_close, nvs_commit, World.log]
  · intro e he
    simp only [List.mem_cons, List.mem_append, List.mem_singleton, List.not_mem_nil,
      or_false] at he
    rcases he with rfl | he | rfl | rfl
    · rfl
    · exact hT e he
    · rfl
    · rfl

theorem load_field_adopt (E : Env) (g : Field) (w : World) (v : Int)
    (h : g.nvs_get E w w.my_handle = .ok v) :
    load_field E g w = some
      { w with
        cfg := g.assign w.cfg v
        trace := w.trace ++ [Event.get w.my_handle g.key, Event.report g.key true v] } := by
  unfold load_field
  simp [h, World.log]

theorem load_field_heal (E : Env) (g : Field) (w : World) (e : esp_err_t)
    (h : g.nvs_get E w w.my_handle = .error e) :
    load_field E g w =
      saveConfig E
        { w with
          trace := w.trace ++
            [Event.get w.my_handle g.key, Event.report g.key false (g.get w.cfg)] } := by
  unfold load_field
  simp [h, World.log]

theorem Field.get_assign (f g : Field) (c : configData_t) (v : Int) :
    f.get (g.assign c v) = if f = g then v else f.get c := by
  cases f <;> cases g <;> simp [Field.get, Field.assign]

theorem Field.assign_version (g : Field) (c : configData_t) (v : Int) :
    (g.assign c v).version = c.version := by
  cases g <;> rfl

theorem configData_t.eq_of_fields {c d : configData_t} (hv : c.version = d.version)
    (hf : ∀ f : Field, f.get c = f.get d) : c = d := by
  have h1 := hf .lorasf
  have h2 := hf .txpower
  have h3 := hf .adrmode
  have h4 := hf .screensaver
  have h5 := hf .screenon
  have h6 := hf .countermode
  have h7 := hf .wifiscancycle
  have h8 := hf .wifichancycle
  have h9 := hf .blescancycle
  have h10 := hf .blescan
  have h11 := hf .wifiant
  have h12 := hf .rssilimit
  simp only [Field.get] at h1 h2 h3 h4 h5 h6 h7 h8 h9 h10 h11 h12
  cases c; cases d
  simp_all

theorem bind_chain {P Q : World → Prop} {m : Option World} {k : World → Option World}
    (hm : ∃ w, m = some w ∧ P w) (hk : ∀ w, P w → ∃ w', k w = some w' ∧ Q w') :
    ∃ w', m.bind k = some w' ∧ Q w' := by
  obtain ⟨w, rfl, hp⟩ := hm
  exact hk w hp

/-- After saveConfig the handle in `my_handle` is closed and the namespace holds the
record. -/
theorem saveConfig_settles {E : Env} (hm : MediumOk E) (ho : OpensOk E) (w : World)
    (hS : ∀ s, w.store "version" = some (Val.str s) → s.length ≤ 9) :
    ∃ w', saveConfig E w = some w' ∧ Settled w.cfg (written w.cfg w.store) w' := by
  obtain ⟨evs, h, -⟩ := saveConfig_spec hm w (ho _) hS
  exact ⟨_, h, by simp [List.mem_filter], rfl, rfl⟩

theorem tag_of_holds {c : configData_t} {s : String → Option Val} (hs : Holds s c)
    (hc : c.version.length ≤ 9) :
    ∀ t, s "version" = some (Val.str t) → t.length ≤ 9 := by
  intro t ht
  rw [hs.1] at ht
  cases ht
  exact hc

theorem load_field_settled {E : Env} (hm : MediumOk E) (ho : OpensOk E) (g : Field)
    {c : configData_t} {s : String → Option Val} (hs : Holds s c)
    (hc : c.version.length ≤ 9) (w : World) (h : Settled c s w) :
    ∃ w', load_field E g w = some w' ∧ Settled c s w' := by
  obtain ⟨hd, rfl, rfl⟩ := h
  rw [load_field_heal E g w _ (g.nvs_get_dead E w _ hd)]
  obtain ⟨w', h', hS⟩ := saveConfig_settles hm ho
    { w with
      trace := w.trace ++
        [Event.get w.my_handle g.key, Event.report g.key false (g.get w.cfg)] }
    (tag_of_holds hs hc)
  refine ⟨w', h', ?_⟩
  simpa [written_of_holds hs] using hS

theorem load_settings_settled {E : Env} (hm : MediumOk E) (ho : OpensOk E)
    {c : configData_t} {s : String → Option Val} (hs : Holds s c)
    (hc : c.version.length ≤ 9) (w : World) (h : Settled c s w) :
    ∃ w', load_settings E w = some w' ∧ Settled c s w' := by
  unfold load_settings
  simp only [Option.bind_eq_bind]
  refine bind_chain (load_field_settled hm ho _ hs hc w h) fun w h => ?_
  refine bind_chain (load_field_settled hm ho _ hs hc w h) fun w h => ?_
  refine bind_chain (load_field_settled hm ho _ hs hc w h) fun w h => ?_
  refine bind_chain (load_field_settled hm ho _ hs hc w h) fun w h => ?_
  refine bind_chain (load_field_settled hm ho _ hs hc w h) fun w h => ?_
  refine bind_chain (load_field_settled hm ho _ hs hc w h) fun w h => ?_
  refine bind_chain (load_field_settled hm ho _ hs hc w h) fun w h => ?_
  refine bind_chain (load_field_settled hm ho _ hs hc w h) fun w h => ?_
  refine bind_chain (load_field_settled hm ho _ hs hc w h) fun w h => ?_
  refine bind_chain (load_field_settled hm ho _ hs hc w h) fun w h => ?_
  refine bind_chain (load_field_settled hm ho _ hs hc w h) fun w h => ?_
  refine bind_chain (load_field_settled hm ho _ hs hc w h) fun w h => ?_
  obtain ⟨hd, hc, hst⟩ := h
  exact ⟨_, rfl, by simp [nvs_close, List.mem_filter], by simp [nvs_close, hc],
    by simp [nvs_close, hst]⟩

theorem load_field_reconciled {B : Build} {E : Env} (hm : MediumOk E) (ho : OpensOk E)
    (hB : B.PROGVERSION.length ≤ 9)
    (g : Field) {fs : List Field} (w : World) (h : Reconciled B fs w) :
    ∃ w', load_field E g w = some w' ∧ Reconciled B (g :: fs) w' := by
  obtain ⟨hv, h⟩ := h
  have hS : ∀ t, w.store "version" = some (Val.str t) → t.length ≤ 9 := by
    intro t ht
    rcases h with ⟨-, hs⟩ | ⟨-, hsv, -⟩
    · exact tag_of_holds hs (by rw [hv]; exact hB) t ht
    · rw [hsv] at ht; cases ht; exact hB
  cases hg : g.nvs_get E w w.my_handle with
  | error e =>
    rw [load_field_heal E g w e hg]
    obtain ⟨w', h', hd, hc, hst⟩ := saveConfig_settles hm ho
      { w with
        trace := w.trace ++
          [Event.get w.my_handle g.key, Event.report g.key false (g.get w.cfg)] } hS
    refine ⟨w', h', ?_, Or.inl ⟨hd, ?_⟩⟩
    · rw [hc]; exact hv
    · rw [hc, hst]; exact holds_written _ _
  | ok v =>
    have hok := (g.nvs_get_ok_iff E w _ v).1 hg
    rw [load_field_adopt E g w v hg]
    refine ⟨_, rfl, ?_, ?_⟩
    · simpa [Field.assign_version] using hv
    · rcases h with ⟨hd, -⟩ | ⟨hl, hsv, hfs⟩
      · exact absurd hok.1 hd
      · refine Or.inr ⟨hl, hsv, ?_⟩
        intro f hf
        simp only [Field.get_assign]
        rcases List.mem_cons.1 hf with rfl | hf
        · simpa using hok.2.2
        · by_cases hfg : f = g
          · subst hfg; simpa using hok.2.2
          · simpa [hfg] using hfs f hf

theorem load_settings_reconciled {B : Build} {E : Env} (hm : MediumOk E) (ho : OpensOk E)
    (hB : B.PROGVERSION.length ≤ 9) (w : World) (h : Reconciled B [] w) :
    ∃ w', load_settings E w = some w' ∧ w'.cfg.version = B.PROGVERSION ∧
      Holds w'.store w'.cfg := by
  unfold load_settings
  simp only [Option.bind_eq_bind]
  refine bind_chain (load_field_reconciled hm ho hB _ w h) fun w h => ?_
  refine bind_chain (load_field_reconciled hm ho hB _ w h) fun w h => ?_
  refine bind_chain (load_field_reconciled hm ho hB _ w h) fun w h => ?_
  refine bind_chain (load_field_reconciled hm ho hB _ w h) fun w h => ?_
  refine bind_chain (load_field_reconciled hm ho hB _ w h) fun w h => ?_
  refine bind_chain (load_field_reconciled hm ho hB _ w h) fun w h => ?_
  refine bind_chain (load_field_reconciled hm ho hB _ w h) fun w h => ?_
  refine bind_chain (load_field_reconciled hm ho hB _ w h) fun w h => ?_
  refine bind_chain (load_field_reconciled hm ho hB _ w h) fun w h => ?_
  refine bind_chain (load_field_reconciled hm ho hB _ w h) fun w h => ?_
  refine bind_chain (load_field_reconciled hm ho hB _ w h) fun w h => ?_
  refine bind_chain (load_field_reconciled hm ho hB _ w h) fun w h => ?_
  obtain ⟨hv, h⟩ := h
  refine ⟨_, rfl, by simpa [nvs_close] using hv, ?_⟩
  rcases h with ⟨-, hs⟩ | ⟨-, hsv, hfs⟩
  · simpa [nvs_close] using hs
  · refine ⟨by simpa [nvs_close, hv] using hsv, fun f => ?_⟩
    have := hfs f (by cases f <;> simp)
    simpa [nvs_close] using this

theorem eraseConfig_spec {E : Env} (hm : MediumOk E) (w : World)
    (ho : E.nvs_open w.opens = ESP_OK) :
    eraseConfig E w = some
      { w with
        inits := w.inits + 1
        opens := w.opens + 1
        err := ESP_OK
        my_handle := w.next_handle
        handles := w.handles.filter (fun x => x ≠ w.next_handle)
        next_handle := w.next_handle + 1
        store := fun _ => none
        trace := w.trace ++ [Event.opened w.next_handle, Event.erase_all w.next_handle,
          Event.commit w.next_handle, Event.closed w.next_handle] } := by
  unfold eraseConfig
  rw [open_storage_ok hm w ho]
  simp [nvs_erase_all, nvs_close, World.log]

theorem migrateVersion_eq {B : Build} (hB : B.PROGVERSION.length ≤ 9) (E : Env) (w : World) :
    migrateVersion B E w =
      saveConfig E { w with cfg := { w.cfg with version := B.PROGVERSION } } := by
  unfold migrateVersion
  have : ¬ (10 < B.PROGVERSION.length + 1) := by omega
  simp [this]

/-- The version check when the tag read from the namespace is that of the build: only
`cfg.version` is touched. -/
theorem check_version_keep (B : Build) (E : Env) (w : World)
    (hB : B.PROGVERSION.length ≤ 9) (hl : w.my_handle ∈ w.handles)
    (hr : E.read_fault w.my_handle "version" = false)
    (hs : w.store "version" = some (Val.str B.PROGVERSION)) :
    check_version B E w = some
      { w with
        cfg := { w.cfg with version := B.PROGVERSION }
        trace := w.trace ++
          [Event.get w.my_handle "version", Event.get w.my_handle "version"] } := by
  have h10 : ¬ (10 < B.PROGVERSION.length + 1) := by omega
  unfold check_version nvs_get_str_size nvs_get_str
  simp [hl, hr, hs, h10, World.log]

/-- The version check when the tag read from the namespace differs from that of the
build: `my_handle` is closed and the record, with the version of the build, is saved. -/
theorem check_version_migrate (B : Build) (E : Env) (w : World) (s : String)
    (hB : B.PROGVERSION.length ≤ 9) (hl : w.my_handle ∈ w.handles)
    (hr : E.read_fault w.my_handle "version" = false)
    (hs : w.store "version" = some (Val.str s)) (hlen : s.length ≤ 9)
    (hne : s ≠ B.PROGVERSION) :
    check_version B E w = saveConfig E
      { w with
        cfg := { w.cfg with version := B.PROGVERSION }
        handles := w.handles.filter (fun x => x ≠ w.my_handle)
        trace := w.trace ++ [Event.get w.my_handle "version",
          Event.get w.my_handle "version", Event.closed w.my_handle] } := by
  have h10 : ¬ (10 < s.length + 1) := by omega
  unfold check_version nvs_get_str_size nvs_get_str
  simp [hl, hr, hs, h10, World.log, hne, migrateVersion_eq hB, nvs_close]

/-- The version check when no tag can be read: `my_handle` is closed, the namespace is
erased and the record, with the version of the build, is saved. -/
theorem check_version_erase (B : Build) (E : Env) (w : World) (e : esp_err_t)
    (hB : B.PROGVERSION.length ≤ 9)
    (hg : nvs_get_str_size E w w.my_handle "version" = .error e) :
    check_version B E w =
      (eraseConfig E
        { w with
          handles := w.handles.filter (fun x => x ≠ w.my_handle)
          trace := w.trace ++ [Event.get w.my_handle "version",
            Event.closed w.my_handle] }).bind
        fun w => saveConfig E { w with cfg := { w.cfg with version := B.PROGVERSION } } := by
  unfold check_version
  simp [hg, World.log, nvs_close, migrateVersion_eq hB]

theorem nvs_get_str_size_cases (E : Env) (w : World) (h : Nat) (k : String) :
    (∃ e, nvs_get_str_size E w h k = .error e) ∨
    (h ∈ w.handles ∧ E.read_fault h k = false ∧ ∃ s, w.store k = some (Val.str s)) := by
  unfold nvs_get_str_size
  by_cases hh : h ∈ w.handles
  · cases hr : E.read_fault h k
    · cases hs : w.store k with
      | none => simp [hh]
      | some v => cases v <;> simp [hh]
    · simp [hh]
  · simp [hh]

theorem nvs_get_str_size_error (E : Env) (w : World) (h : Nat) (k : String)
    (hno : E.read_fault h k = true ∨ ∀ s, w.store k ≠ some (Val.str s)) :
    ∃ e, nvs_get_str_size E w h k = .error e := by
  rcases nvs_get_str_size_cases E w h k with he | ⟨-, hr, s, hs⟩
  · exact he
  · rcases hno with hf | hn
    · rw [hf] at hr; cases hr
    · exact absurd hs (hn s)

/-- The version check leaves loadConfig with the version of the build in memory and every
setting in memory as it was; either it saved the record, or the tag in the namespace is
that of the build. -/
theorem check_version_reconciled {B : Build} {E : Env} (hm : MediumOk E) (ho : OpensOk E)
    (hB : B.PROGVERSION.length ≤ 9) (w : World) (hl : w.my_handle ∈ w.handles)
    (hS : ∀ s, w.store "version" = some (Val.str s) → s.length ≤ 9) :
    ∃ w', check_version B E w = some w' ∧ Reconciled B [] w' ∧
      w'.cfg = { w.cfg with version := B.PROGVERSION } := by
  rcases nvs_get_str_size_cases E w w.my_handle "version" with ⟨e, he⟩ | ⟨-, hr, s, hs⟩
  · rw [check_version_erase B E w e hB he, eraseConfig_spec hm _ (ho _)]
    obtain ⟨w', h', hd, hc, hst⟩ := saveConfig_settles hm ho
      { w with
        cfg := { w.cfg with version := B.PROGVERSION }
        inits := w.inits + 1
        opens := w.opens + 1
        err := ESP_OK
        my_handle := w.next_handle
        handles := (w.handles.filter (fun x => x ≠ w.my_handle)).filter
          (fun x => x ≠ w.next_handle)
        next_handle := w.next_handle + 1
        store := fun _ => none
        trace := (w.trace ++ [Event.get w.my_handle "version",
          Event.closed w.my_handle]) ++ [Event.opened w.next_handle,
          Event.erase_all w.next_handle, Event.commit w.next_handle,
          Event.closed w.next_handle] } (by simp)
    refine ⟨w', h', ⟨by rw [hc], Or.inl ⟨hd, ?_⟩⟩, hc⟩
    rw [hc, hst]; exact holds_written _ _
  · by_cases hne : s = B.PROGVERSION
    · subst hne
      rw [check_version_keep B E w hB hl hr hs]
      exact ⟨_, rfl, ⟨rfl, Or.inr ⟨hl, hs, by simp⟩⟩, rfl⟩
    · rw [check_version_migrate B E w s hB hl hr hs (hS s hs) hne]
      obtain ⟨w', h', hd, hc, hst⟩ := saveConfig_settles hm ho
        { w with
          cfg := { w.cfg with version := B.PROGVERSION }
          handles := w.handles.filter (fun x => x ≠ w.my_handle)
          trace := w.trace ++ [Event.get w.my_handle "version",
            Event.get w.my_handle "version", Event.closed w.my_handle] } hS
      refine ⟨w', h', ⟨by rw [hc], Or.inl ⟨hd, ?_⟩⟩, hc⟩
      rw [hc, hst]; exact holds_written _ _

theorem load_start_live (B : Build) (w : World) :
    (load_start B w).my_handle ∈ (load_start B w).handles := by
  simp [load_start]

/-- The body of loadConfig once the namespace is open. -/
theorem loadConfig_eq_of_open {B : Build} {E : Env} (hm : MediumOk E) (w : World)
    (ho : E.nvs_open w.opens = ESP_OK) :
    loadConfig B E w = (check_version B E (load_start B w)).bind (load_settings E) := by
  unfold loadConfig
  have := open_storage_ok hm (defaultConfig B w) (by simpa [defaultConfig] using ho)
  simp only [Option.bind_eq_bind, this]
  simp [defaultConfig, load_start]

/-- Whatever the namespace holds, loadConfig ends with the version of the build in memory
and with the namespace holding the record in memory. -/
theorem loadConfig_reconciles {B : Build} {E : Env} (hm : MediumOk E) (ho : OpensOk E)
    (hB : B.PROGVERSION.length ≤ 9) (w : World)
    (hS : ∀ s, w.store "version" = some (Val.str s) → s.length ≤ 9) :
    ∃ w', loadConfig B E w = some w' ∧ w'.cfg.version = B.PROGVERSION ∧
      Holds w'.store w'.cfg := by
  rw [loadConfig_eq_of_open hm w (ho _)]
  refine bind_chain (Q := fun w' => w'.cfg.version = B.PROGVERSION ∧ Holds w'.store w'.cfg)
    (check_version_reconciled hm ho hB _ (load_start_live B w) hS) fun w1 h1 => ?_
  exact load_settings_reconciled hm ho hB w1 h1.1

theorem defaultConfig_version {B : Build} (hB : B.PROGVERSION.length ≤ 9) (w : World) :
    (defaultConfig B w).cfg.version = B.PROGVERSION := by
  have h : B.PROGVERSION.data.length ≤ 9 := hB
  simp [defaultConfig, List.take_of_length_le h]

/-- When no version tag can be read, loadConfig ends with the factory settings in memory
and with a namespace that holds them and nothing else. -/
theorem loadConfig_erases {B : Build} {E : Env} (hm : MediumOk E) (ho : OpensOk E)
    (hB : B.PROGVERSION.length ≤ 9) (w : World)
    (hno : E.read_fault w.next_handle "version" = true ∨
      ∀ s, w.store "version" ≠ some (Val.str s)) :
    ∃ w', loadConfig B E w = some w' ∧
      Settled (defaultConfig B w).cfg (written (defaultConfig B w).cfg fun _ => none) w' := by
  rw [loadConfig_eq_of_open hm w (ho _)]
  refine bind_chain (P := Settled (defaultConfig B w).cfg
    (written (defaultConfig B w).cfg fun _ => none)) ?_
    (load_settings_settled hm ho (holds_written _ _)
      (by rw [defaultConfig_version hB]; exact hB))
  obtain ⟨e, he⟩ := nvs_get_str_size_error E (load_start B w) (load_start B w).my_handle
    "version" hno
  rw [check_version_erase B E _ e hB he, eraseConfig_spec hm _ (ho _)]
  obtain ⟨w', h', hd, hc, hst⟩ := saveConfig_settles hm ho
    { w with
      cfg := { (defaultConfig B w).cfg with version := B.PROGVERSION }
      inits := w.inits + 1 + 1
      opens := w.opens + 1 + 1
      err := ESP_OK
      my_handle := w.next_handle + 1
      handles := ((w.next_handle :: w.handles).filter (fun x => x ≠ w.next_handle)).filter
        (fun x => x ≠ w.next_handle + 1)
      next_handle := w.next_handle + 1 + 1
      store := fun _ => none
      trace := ((w.trace ++ [Event.opened w.next_handle]) ++
        [Event.get w.next_handle "version", Event.closed w.next_handle]) ++
        [Event.opened (w.next_handle + 1), Event.erase_all (w.next_handle + 1),
         Event.commit (w.next_handle + 1), Event.closed (w.next_handle + 1)] } (by simp)
  have hD : ({ (defaultConfig B w).cfg with version := B.PROGVERSION } : configData_t)
      = (defaultConfig B w).cfg := by
    rw [← defaultConfig_version hB w]
  refine ⟨w', h', hd, ?_, ?_⟩
  · rw [hc]; exact hD
  · rw [hst]; simp only [hD]

/-- When the version tag read from the namespace differs from that of the build,
loadConfig ends with the factory settings in memory and with the namespace it found,
overwritten by them. -/
theorem loadConfig_migrates {B : Build} {E : Env} (hm : MediumOk E) (ho : OpensOk E)
    (hB : B.PROGVERSION.length ≤ 9) (w : World) (s : String)
    (hr : E.read_fault w.next_handle "version" = false)
    (hs : w.store "version" = some (Val.str s))
    (hlen : s.length ≤ 9) (hne : s ≠ B.PROGVERSION) :
    ∃ w', loadConfig B E w = some w' ∧
      Settled (defaultConfig B w).cfg (written (defaultConfig B w).cfg w.store) w' := by
  have hS : ∀ t, w.store "version" = some (Val.str t) → t.length ≤ 9 := by
    intro t ht
    rw [hs] at ht
    cases ht
    exact hlen
  rw [loadConfig_eq_of_open hm w (ho _)]
  refine bind_chain (P := Settled (defaultConfig B w).cfg
    (written (defaultConfig B w).cfg w.store)) ?_
    (load_settings_settled hm ho (holds_written _ _)
      (by rw [defaultConfig_version hB]; exact hB))
  rw [check_version_migrate B E (load_start B w) s hB (load_start_live B w) hr hs hlen hne]
  obtain ⟨w', h', hd, hc, hst⟩ := saveConfig_settles hm ho
    { w with
      cfg := { (defaultConfig B w).cfg with version := B.PROGVERSION }
      inits := w.inits + 1
      opens := w.opens + 1
      err := ESP_OK
      my_handle := w.next_handle
      handles := (w.next_handle :: w.handles).filter (fun x => x ≠ w.next_handle)
      next_handle := w.next_handle + 1
      trace := (w.trace ++ [Event.opened w.next_handle]) ++
        [Event.get w.next_handle "version", Event.get w.next_handle "version",
         Event.closed w.next_handle] } hS
  have hD : ({ (defaultConfig B w).cfg with version := B.PROGVERSION } : configData_t)
      = (defaultConfig B w).cfg := by
    rw [← defaultConfig_version hB w]
  refine ⟨w', h', hd, ?_, ?_⟩
  · rw [hc]; exact hD
  · rw [hst]; simp only [hD]

/-- When its open of the namespace fails, loadConfig sets the factory settings and calls
saveConfig. -/
theorem loadConfig_eq_of_open_fail {B : Build} {E : Env} (hm : MediumOk E) (w : World)
    (hf : E.nvs_open w.opens ≠ ESP_OK) :
    loadConfig B E w = saveConfig E
      { w with
        cfg := (defaultConfig B w).cfg
        inits := w.inits + 1
        opens := w.opens + 1
        err := E.nvs_open w.opens
        trace := w.trace ++ [Event.open_failed] } := by
  unfold loadConfig
  have h1 := open_storage_fail hm (defaultConfig B w) (by simpa [defaultConfig] using hf)
  simp only [Option.bind_eq_bind, h1, Option.some_bind]
  rw [if_pos (by simpa [defaultConfig] using hf)]
  simp [defaultConfig]

/-- When the namespace opens neither for loadConfig nor for the saveConfig it then calls,
loadConfig only sets the factory settings. -/
theorem loadConfig_open_fails {B : Build} {E : Env} (hm : MediumOk E) (w : World)
    (hf : E.nvs_open w.opens ≠ ESP_OK) (hf2 : E.nvs_open (w.opens + 1) ≠ ESP_OK) :
    loadConfig B E w = some
      { w with
        cfg := (defaultConfig B w).cfg
        inits := w.inits + 2
        opens := w.opens + 2
        err := E.nvs_open (w.opens + 1)
        trace := w.trace ++ [Event.open_failed, Event.open_failed] } := by
  rw [loadConfig_eq_of_open_fail hm w hf, saveConfig_fail hm _ hf2]
  simp

/-- When the namespace does not open for loadConfig but opens for the saveConfig it then
calls, the factory settings are written over the namespace. -/
theorem loadConfig_open_retry {B : Build} {E : Env} (hm : MediumOk E) (w : World)
    (hf : E.nvs_open w.opens ≠ ESP_OK) (ho2 : E.nvs_open (w.opens + 1) = ESP_OK)
    (hS : ∀ s, w.store "version" = some (Val.str s) → s.length ≤ 9) :
    ∃ evs, loadConfig B E w = some
      { w with
        cfg := (defaultConfig B w).cfg
        inits := w.inits + 2
        opens := w.opens + 2
        err := ESP_OK
        my_handle := w.next_handle
        handles := w.handles.filter (fun x => x ≠ w.next_handle)
        next_handle := w.next_handle + 1
        store := written (defaultConfig B w).cfg w.store
        trace := w.trace ++ evs } := by
  rw [loadConfig_eq_of_open_fail hm w hf]
  obtain ⟨evs, h, -⟩ := saveConfig_spec hm
    { w with
      cfg := (defaultConfig B w).cfg
      inits := w.inits + 1
      opens := w.opens + 1
      err := E.nvs_open w.opens
      trace := w.trace ++ [Event.open_failed] } ho2 hS
  exact ⟨Event.open_failed :: Event.opened w.next_handle :: evs, by rw [h]; simp⟩

theorem load_field_adopting {E : Env} (hr : ReadsOk E) {R : configData_t} {w1 : World}
    (hl : w1.my_handle ∈ w1.handles) (hs : Holds w1.store R) (g : Field) {fs : List Field}
    (w : World) (h : Adopting R w1 fs w) :
    ∃ w', load_field E g w = some w' ∧ Adopting R w1 (g :: fs) w' := by
  obtain ⟨c, evs, rfl, hv, hfs, hT⟩ := h
  have hg : g.nvs_get E { w1 with cfg := c, trace := w1.trace ++ evs } w1.my_handle
      = .ok (g.get R) :=
    (g.nvs_get_ok_iff E _ _ _).2 ⟨hl, hr _ _, hs.2 g⟩
  rw [load_field_adopt E g _ _ hg]
  refine ⟨_, rfl, g.assign c (g.get R),
    evs ++ [Event.get w1.my_handle g.key, Event.report g.key true (g.get R)], by simp,
    by rw [Field.assign_version, hv], ?_, ?_⟩
  · intro f hf
    rw [Field.get_assign]
    by_cases hfg : f = g
    · simp [hfg]
    · rcases List.mem_cons.1 hf with rfl | hf
      · exact absurd rfl hfg
      · simp [hfg, hfs f hf]
  · intro e he
    rcases List.mem_append.1 he with he | he
    · exact hT e he
    · simp at he
      rcases he with rfl | rfl <;> rfl

theorem load_settings_adopting {E : Env} (hr : ReadsOk E) {R : configData_t} {w1 : World}
    (hl : w1.my_handle ∈ w1.handles) (hs : Holds w1.store R) (w : World)
    (h : Adopting R w1 [] w) :
    ∃ w' evs, load_settings E w = some w' ∧ w'.cfg = R ∧ w'.store = w1.store ∧
      w'.trace = w1.trace ++ evs ∧ (∀ e ∈ evs, Event.isWrite e = false) ∧
      w'.handles = w1.handles.filter (fun x => x ≠ w1.my_handle) := by
  suffices hgoal : ∃ w', load_settings E w = some w' ∧ ∃ evs, w'.cfg = R ∧
      w'.store = w1.store ∧ w'.trace = w1.trace ++ evs ∧
      (∀ e ∈ evs, Event.isWrite e = false) ∧
      w'.handles = w1.handles.filter (fun x => x ≠ w1.my_handle) by
    obtain ⟨w', h1, evs, h2⟩ := hgoal
    exact ⟨w', evs, h1, h2⟩
  unfold load_settings
  simp only [Option.bind_eq_bind]
  refine bind_chain (load_field_adopting hr hl hs _ w h) fun w h => ?_
  refine bind_chain (load_field_adopting hr hl hs _ w h) fun w h => ?_
  refine bind_chain (load_field_adopting hr hl hs _ w h) fun w h => ?_
  refine bind_chain (load_field_adopting hr hl hs _ w h) fun w h => ?_
  refine bind_chain (load_field_adopting hr hl hs _ w h) fun w h => ?_
  refine bind_chain (load_field_adopting hr hl hs _ w h) fun w h => ?_
  refine bind_chain (load_field_adopting hr hl hs _ w h) fun w h => ?_
  refine bind_chain (load_field_adopting hr hl hs _ w h) fun w h => ?_
  refine bind_chain (load_field_adopting hr hl hs _ w h) fun w h => ?_
  refine bind_chain (load_field_adopting hr hl hs _ w h) fun w h => ?_
  refine bind_chain (load_field_adopting hr hl hs _ w h) fun w h => ?_
  refine bind_chain (load_field_adopting hr hl hs _ w h) fun w h => ?_
  obtain ⟨c, evs, rfl, hv, hfs, hT⟩ := h
  have hc : c = R := configData_t.eq_of_fields hv fun f => hfs f (by cases f <;> simp)
  refine ⟨_, rfl, evs ++ [Event.closed w1.my_handle], by simp [nvs_close, hc],
    by simp [nvs_close], by simp [nvs_close], ?_, by simp [nvs_close]⟩
  intro e he
  rcases List.mem_append.1 he with he | he
  · exact hT e he
  · simp at he; subst he; rfl

/-- When the namespace holds a record `R` with the version of the build, loadConfig
adopts `R` and writes nothing. -/
theorem loadConfig_adopts {B : Build} {E : Env} (hm : MediumOk E) (hr : ReadsOk E)
    (hB : B.PROGVERSION.length ≤ 9) (w : World) (ho : E.nvs_open w.opens = ESP_OK)
    (R : configData_t) (hs : Holds w.store R) (hv : R.version = B.PROGVERSION) :
    ∃ w' evs, loadConfig B E w = some w' ∧ w'.cfg = R ∧ w'.store = w.store ∧
      w'.trace = w.trace ++ evs ∧ (∀ e ∈ evs, Event.isWrite e = false) ∧
      w'.handles = w.handles.filter (fun x => x ≠ w.next_handle) := by
  rw [loadConfig_eq_of_open hm w ho]
  rw [check_version_keep B E (load_start B w) hB (load_start_live B w) (hr _ _)
    (by rw [← hv]; exact hs.1)]
  obtain ⟨w', evs, h1, h2, h3, h4, h5, h6⟩ := load_settings_adopting hr
    (load_start_live B w) (show Holds (load_start B w).store R from hs) _
    ⟨{ (defaultConfig B w).cfg with version := B.PROGVERSION },
      [Event.get w.next_handle "version", Event.get w.next_handle "version"],
      rfl, hv.symm, by simp, by simp [Event.isWrite]⟩
  refine ⟨w', Event.opened w.next_handle :: evs, h1, h2, h3, by simp [h4, load_start], ?_, ?_⟩
  · intro e he
    rcases List.mem_cons.1 he with rfl | he
    · rfl
    · exact h5 e he
  · simp [h6, load_start, List.filter_cons]

theorem load_field_faulted {E : Env} (hm : MediumOk E) (ho : OpensOk E) {f : Field}
    {h1 : Nat} (hf : E.read_fault h1 f.key = true) (g : Field) {d : Int}
    {s0 : String → Option Val} {t0 : List Event} {fs : List Field} (w : World)
    (h : Faulted f d h1 s0 t0 fs w) :
    ∃ w', load_field E g w = some w' ∧ Faulted f d h1 s0 t0 (g :: fs) w' := by
  obtain ⟨hd, hcv, hS, hh, evs, ht, hrep, hfrep, hst, hwr⟩ := h
  cases hg : g.nvs_get E w w.my_handle with
  | error e =>
    rw [load_field_heal E g w e hg]
    obtain ⟨evs2, h2, hP⟩ := saveConfig_spec hm
      { w with
        trace := w.trace ++
          [Event.get w.my_handle g.key, Event.report g.key false (g.get w.cfg)] }
      (ho _) hS
    have hk : (∃ h, Event.set h f.key ∈ evs ++ Event.get w.my_handle g.key ::
          Event.report g.key false (g.get w.cfg) :: Event.opened w.next_handle :: evs2) ∨
        s0 f.key = some (f.val d) := by
      rcases hP f with hset | hheld
      · exact Or.inl ⟨w.next_handle, by simp [hset]⟩
      · rcases hst with ⟨h, hset⟩ | hsame
        · exact Or.inl ⟨h, by simp [hset]⟩
        · refine Or.inr ?_
          rw [← hsame, ← hd]
          exact hheld
    refine ⟨_, h2, hd, hcv, tag_of_holds (holds_written w.cfg w.store) hcv, ?_,
      evs ++ Event.get w.my_handle g.key :: Event.report g.key false (g.get w.cfg) ::
        Event.opened w.next_handle :: evs2, by simp [ht], ?_, ?_, ?_, fun _ => hk⟩
    · intro hmem
      simp [List.mem_filter] at hmem
    · intro g' hg'
      rcases List.mem_cons.1 hg' with rfl | hg'
      · exact ⟨false, g'.get w.cfg, by simp⟩
      · obtain ⟨a, v, hav⟩ := hrep g' hg'
        exact ⟨a, v, by simp [hav]⟩
    · intro hmem
      rcases List.mem_cons.1 hmem with rfl | hmem
      · simp [hd]
      · simp [hfrep hmem]
    · rcases hk with hset | hheld
      · exact Or.inl hset
      · refine Or.inr ?_
        rw [hheld, ← hd]
        exact (holds_written w.cfg w.store).2 f
  | ok v =>
    have hok := (g.nvs_get_ok_iff E w _ v).1 hg
    have hfg : f ≠ g := by
      rintro rfl
      have := hok.2.1
      rw [hh hok.1, hf] at this
      cases this
    rw [load_field_adopt E g w v hg]
    refine ⟨_, rfl, by simpa [Field.get_assign, hfg] using hd,
      by simpa [Field.assign_version] using hcv, hS, hh,
      evs ++ [Event.get w.my_handle g.key, Event.report g.key true v], by simp [ht],
      ?_, ?_, ?_, ?_⟩
    · intro g' hg'
      rcases List.mem_cons.1 hg' with rfl | hg'
      · exact ⟨true, v, by simp⟩
      · obtain ⟨a, v', hav⟩ := hrep g' hg'
        exact ⟨a, v', by simp [hav]⟩
    · intro hmem
      rcases List.mem_cons.1 hmem with rfl | hmem
      · exact absurd rfl hfg
      · simp [hfrep hmem]
    · rcases hst with ⟨h, hset⟩ | hsame
      · exact Or.inl ⟨h, by simp [hset]⟩
      · exact Or.inr hsame
    · intro hmem
      rcases List.mem_cons.1 hmem with rfl | hmem
      · exact absurd rfl hfg
      · rcases hwr hmem with ⟨h, hset⟩ | hheld
        · exact Or.inl ⟨h, by simp [hset]⟩
        · exact Or.inr hheld

theorem load_settings_faulted {E : Env} (hm : MediumOk E) (ho : OpensOk E) {f : Field}
    {h1 : Nat} (hf : E.read_fault h1 f.key = true) {d : Int}
    {s0 : String → Option Val} {t0 : List Event} (w : World)
    (h : Faulted f d h1 s0 t0 [] w) :
    ∃ w', load_settings E w = some w' ∧ f.get w'.cfg = d ∧ ∃ evs, w'.trace = t0 ++ evs ∧
      Event.report f.key false d ∈ evs ∧ (∀ g : Field, ∃ a v, Event.report g.key a v ∈ evs) ∧
      ((∃ h, Event.set h f.key ∈ evs) ∨ s0 f.key = some (f.val d)) := by
  unfold load_settings
  simp only [Option.bind_eq_bind]
  refine bind_chain (load_field_faulted hm ho hf _ w h) fun w h => ?_
  refine bind_chain (load_field_faulted hm ho hf _ w h) fun w h => ?_
  refine bind_chain (load_field_faulted hm ho hf _ w h) fun w h => ?_
  refine bind_chain (load_field_faulted hm ho hf _ w h) fun w h => ?_
  refine bind_chain (load_field_faulted hm ho hf _ w h) fun w h => ?_
  refine bind_chain (load_field_faulted hm ho hf _ w h) fun w h => ?_
  refine bind_chain (load_field_faulted hm ho hf _ w h) fun w h => ?_
  refine bind_chain (load_field_faulted hm ho hf _ w h) fun w h => ?_
  refine bind_chain (load_field_faulted hm ho hf _ w h) fun w h => ?_
  refine bind_chain (load_field_faulted hm ho hf _ w h) fun w h => ?_
  refine bind_chain (load_field_faulted hm ho hf _ w h) fun w h => ?_
  refine bind_chain (load_field_faulted hm ho hf _ w h) fun w h => ?_
  obtain ⟨hd, -, -, -, evs, ht, hrep, hfrep, -, hwr⟩ := h
  have hall : f ∈ [Field.rssilimit, .blescan, .blescancycle, .wifiant, .wifichancycle,
      .wifiscancycle, .countermode, .screenon, .screensaver, .adrmode, .txpower,
      .lorasf] := by
    cases f <;> simp
  refine ⟨_, rfl, by simpa [nvs_close] using hd, evs ++ [Event.closed w.my_handle],
    by simp [nvs_close, ht], by simp [hfrep hall], ?_, ?_⟩
  · intro g
    obtain ⟨a, v, hav⟩ := hrep g (by cases g <;> simp)
    exact ⟨a, v, by simp [hav]⟩
  · rcases hwr hall with ⟨h, hset⟩ | hheld
    · exact Or.inl ⟨h, by simp [hset]⟩
    · exact Or.inr hheld

/-- When the version tag is that of the build and loadConfig cannot read the setting `f`,
it leaves `f` at its factory value, reports `f` as set to default, reports every
setting, and has `f` written unless the namespace held it at that value. -/
theorem loadConfig_faulted {B : Build} {E : Env} (hm : MediumOk E) (ho : OpensOk E)
    (hB : B.PROGVERSION.length ≤ 9) (w : World)
    (hr : E.read_fault w.next_handle "version" = false)
    (hs : w.store "version" = some (Val.str B.PROGVERSION))
    (f : Field) (hf : E.read_fault w.next_handle f.key = true) :
    ∃ w', loadConfig B E w = some w' ∧ f.get w'.cfg = f.get (defaultConfig B w).cfg ∧
      ∃ evs, w'.trace = w.trace ++ evs ∧
      Event.report f.key false (f.get (defaultConfig B w).cfg) ∈ evs ∧
      (∀ g : Field, ∃ a v, Event.report g.key a v ∈ evs) ∧
      ((∃ h, Event.set h f.key ∈ evs) ∨
        w.store f.key = some (f.val (f.get (defaultConfig B w).cfg))) := by
  rw [loadConfig_eq_of_open hm w (ho _)]
  rw [check_version_keep B E (load_start B w) hB (load_start_live B w) hr hs]
  refine load_settings_faulted hm ho hf _ ⟨?_, hB, ?_, fun _ => rfl,
    Event.opened w.next_handle ::
      [Event.get w.next_handle "version", Event.get w.next_handle "version"],
    ?_, ?_, ?_, Or.inr rfl, ?_⟩
  · cases f <;> rfl
  · intro t ht
    have ht' : w.store "version" = some (Val.str t) := ht
    rw [hs] at ht'
    cases ht'
    exact hB
  · simp [load_start]
  · simp
  · simp
  · simp

theorem healthy_medium : MediumOk healthy := fun _ => rfl

theorem healthy_opens : OpensOk healthy := fun _ => rfl

theorem healthy_reads : ReadsOk healthy := fun _ _ => rfl

theorem tuned_store_holds (v : String) : Holds (tuned_store v) (tuned v) := by
  refine ⟨by simp [tuned_store, store_of, tuned, List.lookup], fun f => ?_⟩
  cases f <;> simp [tuned_store, store_of, tuned, List.lookup, Field.key, Field.val, Field.get]

theorem opens_on_retry_medium : MediumOk opens_on_retry := fun _ => rfl

theorem txpower_unreadable_medium : MediumOk txpower_unreadable := fun _ => rfl

theorem txpower_unreadable_opens : OpensOk txpower_unreadable := fun _ => rfl

theorem tuned_store_tag (v : String) (hv : v.length ≤ 9) (c : configData_t) :
    ∀ s, (boot c (tuned_store v)).store "version" = some (Val.str s) → s.length ≤ 9 := by
  intro s hs
  have h : s = v := by
    simpa [boot, tuned_store, store_of, List.lookup] using hs.symm
  rw [h]
  exact hv

theorem defaultConfig_factory {B : Build} (hB : B.PROGVERSION.length ≤ 9) (w : World) :
    (defaultConfig B w).cfg = factory B := by
  have h : B.PROGVERSION.data.length ≤ 9 := hB
  simp [defaultConfig, factory, List.take_of_length_le h]

/-! ## The claims -/

set_option maxRecDepth 100000

/-- C1 (as stated, refuted): a record tagged "1.0" with txpower 7 is saved and then
loaded by a build that reports "1.1"; the record in memory afterwards has version "1.1"
and txpower 15, not what was saved. -/
theorem round_trip_loses_old_version :
    ((saveConfig healthy (boot (tuned "1.0") fun _ => none)).bind
      (loadConfig build_1_1 healthy)).map (fun w => (w.cfg.version, w.cfg.txpower)) =
    some ("1.1", 15) ∧ ((tuned "1.0").version, (tuned "1.0").txpower) = ("1.0", 7) := by
  with_unfolding_all decide

/-- C1 (amended): for every record `R` whose version is that of the running build (at
most 9 characters) and every world in which the medium initialises, the namespace opens,
reads succeed and the version tag already stored, if any, has at most 9 characters,
saveConfig followed by loadConfig returns and leaves a record in memory equal to `R` in
every field. -/
theorem round_trip_current_version (B : Build) (E : Env) (w : World) (R : configData_t)
    (hm : MediumOk E) (ho : OpensOk E) (hr : ReadsOk E)
    (hB : B.PROGVERSION.length ≤ 9) (hv : R.version = B.PROGVERSION)
    (hS : ∀ s, w.store "version" = some (Val.str s) → s.length ≤ 9) :
    ∃ w1 w2, saveConfig E { w with cfg := R } = some w1 ∧ loadConfig B E w1 = some w2 ∧
      w2.cfg = R := by
  obtain ⟨w1, h1, -, -, hst⟩ := saveConfig_settles hm ho { w with cfg := R } hS
  obtain ⟨w2, -, h2, h3, -⟩ := loadConfig_adopts hm hr hB w1 (ho _) R
    (by rw [hst]; exact holds_written R w.store) hv
  exact ⟨w1, w2, h1, h2, h3⟩

theorem round_trip_current_version_witness :
    MediumOk healthy ∧ OpensOk healthy ∧ ReadsOk healthy ∧
    build_1_1.PROGVERSION.length ≤ 9 ∧ (tuned "1.1").version = build_1_1.PROGVERSION ∧
    (∀ s, (boot blank (tuned_store "1.0")).store "version" = some (Val.str s) →
      s.length ≤ 9) ∧
    ∃ w1 w2, saveConfig healthy { boot blank (tuned_store "1.0") with cfg := tuned "1.1" }
        = some w1 ∧
      loadConfig build_1_1 healthy w1 = some w2 ∧ w2.cfg = tuned "1.1" :=
  ⟨healthy_medium, healthy_opens, healthy_reads, by decide, rfl,
    tuned_store_tag "1.0" (by decide) blank,
    round_trip_current_version build_1_1 healthy (boot blank (tuned_store "1.0"))
      (tuned "1.1") healthy_medium healthy_opens healthy_reads (by decide) rfl
      (tuned_store_tag "1.0" (by decide) blank)⟩

/-- C2: when the medium initialises, the namespace opens, reads succeed and the namespace
holds a record `R` (version tag and all twelve settings, with their declared types)
whose version is that of the running build, loadConfig returns with the record in memory
equal to `R`, the namespace unchanged, and no write among the calls it made. -/
theorem load_adopts_stored_values (B : Build) (E : Env) (w : World) (R : configData_t)
    (hm : MediumOk E) (ho : OpensOk E) (hr : ReadsOk E)
    (hB : B.PROGVERSION.length ≤ 9) (hs : Holds w.store R)
    (hv : R.version = B.PROGVERSION) :
    ∃ w' evs, loadConfig B E w = some w' ∧ w'.cfg = R ∧ w'.store = w.store ∧
      w'.trace = w.trace ++ evs ∧ ∀ e ∈ evs, Event.isWrite e = false := by
  obtain ⟨w', evs, h1, h2, h3, h4, h5, -⟩ := loadConfig_adopts hm hr hB w (ho _) R hs hv
  exact ⟨w', evs, h1, h2, h3, h4, h5⟩

theorem load_adopts_stored_values_witness :
    MediumOk healthy ∧ OpensOk healthy ∧ ReadsOk healthy ∧
    build_1_1.PROGVERSION.length ≤ 9 ∧
    Holds (boot blank (tuned_store "1.1")).store (tuned "1.1") ∧
    (tuned "1.1").version = build_1_1.PROGVERSION ∧
    ∃ w' evs, loadConfig build_1_1 healthy (boot blank (tuned_store "1.1")) = some w' ∧
      w'.cfg = tuned "1.1" ∧ w'.store = (boot blank (tuned_store "1.1")).store ∧
      w'.trace = (boot blank (tuned_store "1.1")).trace ++ evs ∧
      ∀ e ∈ evs, Event.isWrite e = false :=
  ⟨healthy_medium, healthy_opens, healthy_reads, by decide, tuned_store_holds "1.1", rfl,
    load_adopts_stored_values build_1_1 healthy (boot blank (tuned_store "1.1"))
      (tuned "1.1") healthy_medium healthy_opens healthy_reads (by decide)
      (tuned_store_holds "1.1") rfl⟩

/-- C3 (as stated, refuted): a namespace written under version "1.0" holds, besides the
tuned settings, a key "legacy"; after loadConfig by a build that reports "1.1" the key
"legacy" is still there with its value, and it is none of the thirteen keys. -/
theorem version_reset_keeps_foreign_key :
    (loadConfig build_1_1 healthy (boot blank legacy_store)).map
      (fun w => w.store "legacy") = some (some (Val.i8 5)) ∧
    "legacy" ∉ config_keys := by
  with_unfolding_all decide

/-- C3 (amended): when the version tag read from the namespace (at most 9 characters)
differs from that of the running build, loadConfig returns with the factory settings in
memory and with the namespace holding the running version and the twelve settings at
their factory values; every key other than these thirteen keeps what it held (the
namespace is not erased). -/
theorem version_reset_reseeds_settings (B : Build) (E : Env) (w : World) (s : String)
    (hm : MediumOk E) (ho : OpensOk E) (hB : B.PROGVERSION.length ≤ 9)
    (hr : E.read_fault w.next_handle "version" = false)
    (hs : w.store "version" = some (Val.str s))
    (hlen : s.length ≤ 9) (hne : s ≠ B.PROGVERSION) :
    ∃ w', loadConfig B E w = some w' ∧ w'.cfg = factory B ∧ Holds w'.store (factory B) ∧
      ∀ k, k ∉ config_keys → w'.store k = w.store k := by
  obtain ⟨w', h1, -, hc, hst⟩ := loadConfig_migrates hm ho hB w s hr hs hlen hne
  rw [defaultConfig_factory hB] at hc hst
  refine ⟨w', h1, hc, ?_, fun k hk => ?_⟩
  · rw [hst]; exact holds_written _ _
  · rw [hst]; exact written_other _ _ k hk

theorem version_reset_reseeds_settings_witness :
    MediumOk healthy ∧ OpensOk healthy ∧ build_1_1.PROGVERSION.length ≤ 9 ∧
    healthy.read_fault (boot blank legacy_store).next_handle "version" = false ∧
    (boot blank legacy_store).store "version" = some (Val.str "1.0") ∧
    "1.0".length ≤ 9 ∧ "1.0" ≠ build_1_1.PROGVERSION ∧
    ∃ w', loadConfig build_1_1 healthy (boot blank legacy_store) = some w' ∧
      w'.cfg = factory build_1_1 ∧ Holds w'.store (factory build_1_1) ∧
      ∀ k, k ∉ config_keys → w'.store k = (boot blank legacy_store).store k :=
  ⟨healthy_medium, healthy_opens, by decide, rfl, by decide, by decide, by decide,
    version_reset_reseeds_settings build_1_1 healthy (boot blank legacy_store) "1.0"
      healthy_medium healthy_opens (by decide) rfl (by decide) (by decide) (by decide)⟩

/-- C4: when the medium initialises, the namespace opens and the namespace is empty,
loadConfig returns with the factory settings in memory (txpower 15, adrmode 1,
screensaver 0, screenon 1, countermode 0, rssilimit 0, blescan 0, wifiant 0, the values
of the build for lorasf, wifiscancycle, wifichancycle and blescancycle, version
PROGVERSION) and with the namespace holding each of the thirteen keys at that value. -/
theorem default_completeness (B : Build) (E : Env) (w : World)
    (hm : MediumOk E) (ho : OpensOk E) (hB : B.PROGVERSION.length ≤ 9)
    (hempty : ∀ k, w.store k = none) :
    ∃ w', loadConfig B E w = some w' ∧
      w'.cfg =
        { lorasf := int8_t B.LORASFDEFAULT
          txpower := 15
          adrmode := 1
          screensaver := 0
          screenon := 1
          countermode := 0
          rssilimit := 0
          wifiscancycle := int8_t B.SEND_SECS
          wifichancycle := int8_t B.WIFI_CHANNEL_SWITCH_INTERVAL
          blescancycle := int8_t B.BLESCANTIME
          blescan := 0
          wifiant := 0
          version := B.PROGVERSION } ∧
      Holds w'.store w'.cfg := by
  obtain ⟨w', h1, -, hc, hst⟩ := loadConfig_erases hm ho hB w
    (Or.inr fun s => by simp [hempty])
  rw [defaultConfig_factory hB] at hc hst
  refine ⟨w', h1, hc, ?_⟩
  rw [hst, hc]; exact holds_written _ _

theorem default_completeness_witness :
    MediumOk healthy ∧ OpensOk healthy ∧ build_1_1.PROGVERSION.length ≤ 9 ∧
    (∀ k, (boot blank fun _ => none).store k = none) ∧
    ∃ w', loadConfig build_1_1 healthy (boot blank fun _ => none) = some w' ∧
      w'.cfg =
        { lorasf := int8_t build_1_1.LORASFDEFAULT
          txpower := 15
          adrmode := 1
          screensaver := 0
          screenon := 1
          countermode := 0
          rssilimit := 0
          wifiscancycle := int8_t build_1_1.SEND_SECS
          wifichancycle := int8_t build_1_1.WIFI_CHANNEL_SWITCH_INTERVAL
          blescancycle := int8_t build_1_1.BLESCANTIME
          blescan := 0
          wifiant := 0
          version := build_1_1.PROGVERSION } ∧
      Holds w'.store w'.cfg :=
  ⟨healthy_medium, healthy_opens, by decide, fun _ => rfl,
    default_completeness build_1_1 healthy (boot blank fun _ => none)
      healthy_medium healthy_opens (by decide) (fun _ => rfl)⟩

/-- C5 (code at the failing input): the namespace has the version tag of the build and
every setting tuned, except that "txpower" is missing (adrmode is stored as 0, factory
value 1).  After loadConfig txpower is 15 in memory and in the namespace, lorasf (read
before txpower) keeps its stored 12, but adrmode (read after txpower) is 1 in memory
and has been overwritten with 1 in the namespace. -/
theorem self_heal_resets_later_settings :
    (boot blank store_without_txpower).store "adrmode" = some (Val.i8 0) ∧
    (loadConfig build_1_1 healthy (boot blank store_without_txpower)).map
      (fun w => (w.cfg.lorasf, w.cfg.txpower, w.cfg.adrmode, w.store "txpower",
        w.store "adrmode")) =
    some (12, 15, 1, some (Val.i8 15), some (Val.i8 1)) := by
  with_unfolding_all decide

/-- C6 (code at the failing input): the local `required_size` of saveConfig happens to
hold 0.  saveConfig is called twice in a row on a record with version "1.1"; the record
is the same before and after, yet the second call issues a set call for "version",
because its read of the tag fails with `ESP_ERR_NVS_INVALID_LENGTH`. -/
theorem second_save_rewrites_version :
    ((saveConfig required_size_zero (boot (tuned "1.1") fun _ => none)).bind fun w1 =>
      (saveConfig required_size_zero w1).map fun w2 =>
        ((w2.trace.drop w1.trace.length).filter Event.isWrite, decide (w2.cfg = w1.cfg))) =
    some ([Event.set 2 "version"], true) := by
  with_unfolding_all decide

/-- C7 (as stated, refuted): the namespace does not open for loadConfig but opens for the
saveConfig that loadConfig then calls; the namespace held txpower 7 under version "1.0"
and after loadConfig it holds txpower 15, thirteen writes having been issued. -/
theorem open_failure_retry_writes :
    (boot (tuned "1.0") (tuned_store "1.0")).store "txpower" = some (Val.i8 7) ∧
    opens_on_retry.nvs_open (boot (tuned "1.0") (tuned_store "1.0")).opens = ESP_FAIL ∧
    (loadConfig build_1_1 opens_on_retry (boot (tuned "1.0") (tuned_store "1.0"))).map
      (fun w => (w.store "txpower", (w.trace.filter Event.isWrite).length)) =
    some (some (Val.i8 15), 13) := by
  with_unfolding_all decide

/-- C7 (amended): when the medium initialises and the open of the namespace made by
loadConfig fails, loadConfig returns, whatever record was in memory, with the factory
settings in memory (version PROGVERSION), and it has called saveConfig, which opens the
namespace again (two opens in all).  If that open fails too, no read, write or erase is among the calls made
and the namespace is unchanged.  If that open succeeds (the stored version tag, if any,
having at most 9 characters), the namespace afterwards holds the thirteen keys at the
factory values and every other key as before. -/
theorem open_failure_degradation (B : Build) (E : Env) (w : World)
    (hm : MediumOk E) (hB : B.PROGVERSION.length ≤ 9)
    (hf : E.nvs_open w.opens ≠ ESP_OK)
    (hS : E.nvs_open (w.opens + 1) = ESP_OK →
      ∀ s, w.store "version" = some (Val.str s) → s.length ≤ 9) :
    ∃ w' evs, loadConfig B E w = some w' ∧ w'.cfg = factory B ∧
      w'.trace = w.trace ++ evs ∧ w'.opens = w.opens + 2 ∧
      (E.nvs_open (w.opens + 1) ≠ ESP_OK →
        w'.store = w.store ∧ ∀ e ∈ evs, Event.isAccess e = false) ∧
      (E.nvs_open (w.opens + 1) = ESP_OK →
        Holds w'.store (factory B) ∧ ∀ k, k ∉ config_keys → w'.store k = w.store k) := by
  by_cases h2 : E.nvs_open (w.opens + 1) = ESP_OK
  · obtain ⟨evs, h⟩ := loadConfig_open_retry (B := B) hm w hf h2 (hS h2)
    refine ⟨_, evs, h, defaultConfig_factory hB w, rfl, rfl, fun h => absurd h2 h,
      fun _ => ?_⟩
    simp only [defaultConfig_factory hB]
    exact ⟨holds_written _ _, fun k hk => written_other _ _ k hk⟩
  · refine ⟨_, [Event.open_failed, Event.open_failed], loadConfig_open_fails hm w hf h2,
      defaultConfig_factory hB w, rfl, rfl, fun _ => ⟨rfl, ?_⟩, fun h => absurd h h2⟩
    intro e he
    simp at he
    subst he
    rfl

theorem open_failure_degradation_witness :
    MediumOk opens_on_retry ∧ build_1_1.PROGVERSION.length ≤ 9 ∧
    opens_on_retry.nvs_open (boot (tuned "1.0") (tuned_store "1.0")).opens ≠ ESP_OK ∧
    (opens_on_retry.nvs_open ((boot (tuned "1.0") (tuned_store "1.0")).opens + 1) = ESP_OK →
      ∀ s, (boot (tuned "1.0") (tuned_store "1.0")).store "version" = some (Val.str s) →
        s.length ≤ 9) ∧
    ∃ w' evs, loadConfig build_1_1 opens_on_retry (boot (tuned "1.0") (tuned_store "1.0"))
        = some w' ∧
      w'.cfg = factory build_1_1 ∧
      w'.trace = (boot (tuned "1.0") (tuned_store "1.0")).trace ++ evs ∧
      w'.opens = (boot (tuned "1.0") (tuned_store "1.0")).opens + 2 ∧
      (opens_on_retry.nvs_open ((boot (tuned "1.0") (tuned_store "1.0")).opens + 1)
          ≠ ESP_OK →
        w'.store = (boot (tuned "1.0") (tuned_store "1.0")).store ∧
        ∀ e ∈ evs, Event.isAccess e = false) ∧
      (opens_on_retry.nvs_open ((boot (tuned "1.0") (tuned_store "1.0")).opens + 1)
          = ESP_OK →
        Holds w'.store (factory build_1_1) ∧
        ∀ k, k ∉ config_keys →
          w'.store k = (boot (tuned "1.0") (tuned_store "1.0")).store k) :=
  ⟨opens_on_retry_medium, by decide, by decide,
    fun _ => tuned_store_tag "1.0" (by decide) (tuned "1.0"),
    open_failure_degradation build_1_1 opens_on_retry
      (boot (tuned "1.0") (tuned_store "1.0")) opens_on_retry_medium (by decide)
      (by decide) (fun _ => tuned_store_tag "1.0" (by decide) (tuned "1.0"))⟩

/-- C8 (as stated, refuted): the namespace has the version tag of the build and every
setting, and reading "txpower" fails with an I/O error; loadConfig leaves txpower at 15
and its trace contains a set call for "txpower". -/
theorem io_error_is_written_back :
    (boot blank (tuned_store "1.1")).trace = [] ∧
    (loadConfig build_1_1 txpower_unreadable (boot blank (tuned_store "1.1"))).map
      (fun w => (w.cfg.txpower, decide (Event.set 2 "txpower" ∈ w.trace))) =
    some (15, true) := by
  with_unfolding_all decide

/-- C8 (amended): when the medium initialises, the namespace opens, the version tag read
from the namespace is that of the running build and the read loadConfig makes of one
setting `f` fails with an I/O error, loadConfig returns with `f` at its factory value in
memory, reports `f` as set to default, goes on to report every one of the twelve
settings, and writes back: the saveConfig it calls issues a set call for the key of `f`
unless the namespace held that key at the factory value already, and when loadConfig
returns the namespace holds the key at the factory value. -/
theorem io_error_write_back (B : Build) (E : Env) (w : World) (f : Field)
    (hm : MediumOk E) (ho : OpensOk E) (hB : B.PROGVERSION.length ≤ 9)
    (hr : E.read_fault w.next_handle "version" = false)
    (hs : w.store "version" = some (Val.str B.PROGVERSION))
    (hf : E.read_fault w.next_handle f.key = true) :
    ∃ w' evs, loadConfig B E w = some w' ∧ f.get w'.cfg = f.get (factory B) ∧
      w'.trace = w.trace ++ evs ∧
      Event.report f.key false (f.get (factory B)) ∈ evs ∧
      (∀ g : Field, ∃ a v, Event.report g.key a v ∈ evs) ∧
      ((∃ h, Event.set h f.key ∈ evs) ∨
        w.store f.key = some (f.val (f.get (factory B)))) ∧
      w'.store f.key = some (f.val (f.get (factory B))) := by
  have hS : ∀ t, w.store "version" = some (Val.str t) → t.length ≤ 9 := by
    intro t ht
    rw [hs] at ht
    cases ht
    exact hB
  obtain ⟨w', h1, h2, evs, h3, h4, h5, h6⟩ := loadConfig_faulted hm ho hB w hr hs f hf
  obtain ⟨w'', h1', -, hH⟩ := loadConfig_reconciles hm ho hB w hS
  have hw : w'' = w' := Option.some.inj (h1'.symm.trans h1)
  subst hw
  rw [defaultConfig_factory hB] at h2 h4 h6
  refine ⟨w'', evs, h1, h2, h3, h4, h5, h6, ?_⟩
  rw [hH.2 f, h2]

theorem io_error_write_back_witness :
    MediumOk txpower_unreadable ∧ OpensOk txpower_unreadable ∧
    build_1_1.PROGVERSION.length ≤ 9 ∧
    txpower_unreadable.read_fault (boot blank (tuned_store "1.1")).next_handle "version"
      = false ∧
    (boot blank (tuned_store "1.1")).store "version" =
      some (Val.str build_1_1.PROGVERSION) ∧
    txpower_unreadable.read_fault (boot blank (tuned_store "1.1")).next_handle
      Field.txpower.key = true ∧
    ∃ w' evs, loadConfig build_1_1 txpower_unreadable (boot blank (tuned_store "1.1"))
        = some w' ∧
      Field.txpower.get w'.cfg = Field.txpower.get (factory build_1_1) ∧
      w'.trace = (boot blank (tuned_store "1.1")).trace ++ evs ∧
      Event.report Field.txpower.key false (Field.txpower.get (factory build_1_1)) ∈ evs ∧
      (∀ g : Field, ∃ a v, Event.report g.key a v ∈ evs) ∧
      ((∃ h, Event.set h Field.txpower.key ∈ evs) ∨
        (boot blank (tuned_store "1.1")).store Field.txpower.key =
          some (Field.txpower.val (Field.txpower.get (factory build_1_1)))) ∧
      w'.store Field.txpower.key =
        some (Field.txpower.val (Field.txpower.get (factory build_1_1))) :=
  ⟨txpower_unreadable_medium, txpower_unreadable_opens, by decide, by decide, by decide,
    by decide,
    io_error_write_back build_1_1 txpower_unreadable (boot blank (tuned_store "1.1"))
      Field.txpower txpower_unreadable_medium txpower_unreadable_opens (by decide)
      (by decide) (by decide) (by decide)⟩

/-- C9 (code at the failing input): the namespace has the version tag of the build and
every setting except "txpower", and no handle is open before the call.  In the course of
loadConfig two handles are open at the same time, and when it returns the handle it
opened first (handle 1) is still open. -/
theorem self_heal_leaks_handle :
    (boot blank store_without_txpower).handles = [] ∧
    (loadConfig build_1_1 healthy (boot blank store_without_txpower)).map
      (fun w => (peak_open w.trace, w.handles)) = some (2, [1]) := by
  with_unfolding_all decide

/-- C10: when the medium initialises and the namespace opens, then whatever the
namespace holds (a version tag of at most 9 characters or none, any of the settings),
loadConfig returns with the version of the running build in memory and with the namespace
holding all thirteen keys, each with the value of the corresponding field in memory. -/
theorem load_establishes_consistency (B : Build) (E : Env) (w : World)
    (hm : MediumOk E) (ho : OpensOk E) (hB : B.PROGVERSION.length ≤ 9)
    (hS : ∀ s, w.store "version" = some (Val.str s) → s.length ≤ 9) :
    ∃ w', loadConfig B E w = some w' ∧ w'.cfg.version = B.PROGVERSION ∧
      Holds w'.store w'.cfg :=
  loadConfig_reconciles hm ho hB w hS

theorem load_establishes_consistency_witness :
    MediumOk healthy ∧ OpensOk healthy ∧ build_1_1.PROGVERSION.length ≤ 9 ∧
    (∀ s, (boot blank store_without_txpower).store "version" = some (Val.str s) →
      s.length ≤ 9) ∧
    ∃ w', loadConfig build_1_1 healthy (boot blank store_without_txpower) = some w' ∧
      w'.cfg.version = build_1_1.PROGVERSION ∧ Holds w'.store w'.cfg :=
  have hS : ∀ s, (boot blank store_without_txpower).store "version" = some (Val.str s) →
      s.length ≤ 9 := by
    intro s hs
    have h : s = "1.1" := by
      simpa [boot, store_without_txpower, store_of, List.lookup] using hs.symm
    subst h
    decide
  ⟨healthy_medium, healthy_opens, by decide, hS,
    load_establishes_consistency build_1_1 healthy (boot blank store_without_txpower)
      healthy_medium healthy_opens (by decide) hS⟩

end ConfigManager
